import Mathlib

/-!
# Verification of the Night City services orchestrators

A shallow embedding of the two orchestrators of the repository:

* `cyberwareInstallationSaga` (src/workflows/cyberware-saga.ts), the
  compensating-transaction saga over the four adapter systems defined in
  src/activities/cyberware-activities.ts;
* `heistProcessManager` (the process-manager workflow file) together with the
  heist activities (phase state machine, transitions, abort compensation,
  completion settlement).

Money and alert levels are modelled as rationals, mirroring the JavaScript
number arithmetic of the source at the level the verified claims speak about.
Every activity invocation goes through the durable-execution proxy and can
therefore fail independently of the activity body (timeout, retry
exhaustion); an environment record supplies the outcome of each activity
call, while the success data is computed by the formulas of the activity
bodies themselves.
-/

/-- Urgency of a cyberware installation request (shared/types.ts). -/
inductive Urgency
| standard
| rush
| emergency
deriving DecidableEq

/-- Install difficulty of a cyberware item (shared/types.ts). -/
inductive InstallDifficulty
| routine
| complex
| experimental
deriving DecidableEq

/-- Installation type of a ripperdoc appointment (shared/types.ts). -/
inductive InstallationType
| standard
| rush
| back_alley
deriving DecidableEq

/-- The request data the saga's arithmetic depends on: base price of the
cyberware, runner reputation, urgency and install difficulty
(`CyberwareInstallationRequest` in shared/types.ts, restricted to the fields
the workflow formulas read). -/
structure RequestM where
  basePrice : ℚ
  reputation : ℚ
  urgency : Urgency
  installDifficulty : InstallDifficulty
deriving DecidableEq

/-- Outcome environment for one saga execution: for each activity invocation
of the workflow, whether the durable-execution call succeeds, plus the data
the nondeterministic activity bodies produce (emergency stabilization cost,
whether the appointment deposit is refunded on cancellation). -/
structure SagaEnv where
  reserveOk : Bool
  scheduleOk : Bool
  payOk : Bool
  integrateOk : Bool
  confirmOk : Bool
  emergencyOutcome : Option ℚ
  releaseOk : Bool
  cancelOutcome : Option Bool
  refundOk : Bool
  notifyOk : Bool
deriving DecidableEq

/-- The structured result of the saga
(`CyberwareInstallationResult` in shared/types.ts); the step-data fields hold
the monetary value the workflow read from the step result (unit price,
deposit, payment amount). -/
structure SagaResult where
  success : Bool
  inventoryReserved : Option ℚ
  appointmentScheduled : Option ℚ
  paymentProcessed : Option ℚ
  neuralIntegration : Bool
  compensationsExecuted : List String
  failureReason : Option String
  failedAtStep : Option String
  totalCost : ℚ
  totalRefunded : ℚ
  runnerNotified : Bool
deriving DecidableEq

/-- A compensation closure pushed on the saga's stack, with the captured
identifier data (cyberware-saga.ts lines 118, 145, 174). -/
inductive Comp
| release (unitPrice : ℚ)
| cancel (depositPaid : ℚ)
| refund (amount : ℚ)
deriving DecidableEq

/-- Observable events of a saga execution, in the order the workflow performs
them (ghost instrumentation used to state ordering properties). -/
inductive SEvent
| emergencyStab (ok : Bool)
| comp (name : String) (ok : Bool)
| notify (ok : Bool)
| confirmSent
deriving DecidableEq

/-- `calculateSurgeryFee` of cyberware-activities.ts: base fee by difficulty
times the installation-type multiplier. -/
def calculateSurgeryFee (d : InstallDifficulty) (t : InstallationType) : ℚ :=
  let baseFee : ℚ :=
    match d with
    | InstallDifficulty.routine => 200
    | InstallDifficulty.complex => 750
    | InstallDifficulty.experimental => 2000
  let typeMultiplier : ℚ :=
    match t with
    | InstallationType.back_alley => 1/2
    | InstallationType.rush => 3/2
    | InstallationType.standard => 1
  baseFee * typeMultiplier

/-- Price computed by `reserveCyberware`: base price with the
reputation discount capped at 20 percent. -/
def unitPriceOf (req : RequestM) : ℚ :=
  let discount := min (req.reputation * (1/2)) 20
  req.basePrice * (1 - discount / 100)

/-- Installation type chosen by `scheduleRipperdocAppointment`. -/
def installationTypeOf (req : RequestM) : InstallationType :=
  if req.urgency = Urgency.emergency then InstallationType.back_alley
  else InstallationType.standard

/-- Deposit computed by `scheduleRipperdocAppointment`: 20 percent of the
standard surgery fee. -/
def depositOf (req : RequestM) : ℚ :=
  calculateSurgeryFee req.installDifficulty InstallationType.standard * (1/5)

/-- Total payment amount computed by `processCredstickPayment`:
cyberware cost + surgery fee + rush fee + deposit. -/
def amountOf (req : RequestM) : ℚ :=
  let cyberwareCost := unitPriceOf req
  let surgeryFee := calculateSurgeryFee req.installDifficulty (installationTypeOf req)
  let rushFee :=
    match req.urgency with
    | Urgency.rush => surgeryFee * (1/2)
    | Urgency.emergency => surgeryFee * 1
    | Urgency.standard => 0
  cyberwareCost + surgeryFee + rushFee + depositOf req

/-- The result record as the workflow initialises it (cyberware-saga.ts
lines 91-98). -/
def initResult : SagaResult :=
  { success := false
    inventoryReserved := none
    appointmentScheduled := none
    paymentProcessed := none
    neuralIntegration := false
    compensationsExecuted := []
    failureReason := none
    failedAtStep := none
    totalCost := 0
    totalRefunded := 0
    runnerNotified := false }

/-- Display name of a compensation (the `name` field pushed with each
compensation closure). -/
def compName : Comp → String
| Comp.release _ => "Release inventory reservation"
| Comp.cancel _ => "Cancel ripperdoc appointment"
| Comp.refund _ => "Refund credstick payment"

/-- Whether the environment lets a given compensation's activity call
succeed. -/
def compOk (env : SagaEnv) : Comp → Bool
| Comp.release _ => env.releaseOk
| Comp.cancel _ => env.cancelOutcome.isSome
| Comp.refund _ => env.refundOk

/-- The body of one compensation closure (cyberware-saga.ts lines 120-130,
147-159, 176-184): run the paired activity and apply its refund bookkeeping
to the result record; `none` models the closure throwing. The release
closure subtracts the 15 percent restocking fee computed by
`releaseCyberwareReservation` for the reason `installation_failed`; the
cancel closure adds the deposit back when the cancellation reports it
refunded; the refund closure adds the refund amount net of the 5 percent
processing fee computed by `refundCredstickPayment`. -/
def compExecute (env : SagaEnv) (r : SagaResult) : Comp → Option SagaResult
| Comp.release unitPrice =>
  if env.releaseOk then
    let restockFee := 15/100 * unitPrice
    some (if restockFee ≠ 0 then
      { r with totalRefunded := r.totalRefunded - restockFee }
    else r)
  else none
| Comp.cancel depositPaid =>
  match env.cancelOutcome with
  | some depositRefunded =>
    some (if depositRefunded then
      { r with totalRefunded := r.totalRefunded + depositPaid }
    else r)
  | none => none
| Comp.refund amount =>
  if env.refundOk then
    let processingFee := amount * (5/100)
    let refundedAmount := amount - processingFee
    some { r with totalRefunded := r.totalRefunded + refundedAmount }
  else none

/-- One iteration of the unwind loop (cyberware-saga.ts lines 266-280): the
closure is executed; on success its name is appended to
`compensationsExecuted`, a caught failure is recorded with a "(FAILED)"
marker, and either way the loop continues. The event list mirrors the
attempts. -/
def execComp (env : SagaEnv) (acc : SagaResult × List SEvent) (c : Comp) :
    SagaResult × List SEvent :=
  match compExecute env acc.1 c with
  | some r1 =>
    ({ r1 with compensationsExecuted :=
        r1.compensationsExecuted ++ [compName c] },
      acc.2 ++ [SEvent.comp (compName c) true])
  | none =>
    ({ acc.1 with compensationsExecuted :=
        acc.1.compensationsExecuted ++ [compName c ++ " (FAILED)"] },
      acc.2 ++ [SEvent.comp (compName c) false])

/-- The unwind loop: compensations are executed in LIFO order. The stack is
kept most-recently-pushed-first, so the loop is a left fold over the stack
list. -/
def unwindAll (env : SagaEnv) (stack : List Comp)
    (start : SagaResult × List SEvent) : SagaResult × List SEvent :=
  stack.foldl (execComp env) start

/-- End of the catch branch: the unwind followed by the failure notification,
whose own failure is caught (cyberware-saga.ts lines 282-293). -/
def finishUnwind (env : SagaEnv) (stack : List Comp) (r : SagaResult)
    (log : List SEvent) : SagaResult × List SEvent :=
  let p := unwindAll env stack (r, log)
  let r1 := if env.notifyOk then { p.1 with runnerNotified := true } else p.1
  (r1, p.2 ++ [SEvent.notify env.notifyOk])

/-- The catch branch of the saga (cyberware-saga.ts lines 223-304): record
failure metadata, run the emergency stabilization when an appointment exists
and at least 3 compensations are stacked (a neural-integration-stage
failure), then unwind and notify. The emergency action's own failure is
caught. -/
def catchPath (env : SagaEnv) (r0 : SagaResult) (stack : List Comp)
    (errMsg : String) : SagaResult × List SEvent :=
  let r := { r0 with
    failureReason := some errMsg
    failedAtStep := some ("Step " ++ toString (stack.length + 1)) }
  if r.appointmentScheduled.isSome = true ∧ 3 ≤ stack.length then
    let r1 :=
      match env.emergencyOutcome with
      | some emergencyCost => { r with totalCost := r.totalCost + emergencyCost }
      | none => r
    finishUnwind env stack r1 [SEvent.emergencyStab env.emergencyOutcome.isSome]
  else
    finishUnwind env stack r []

/-- Intermediate state of the forward chain: partial result, compensation
stack, pending error, and the trace of (completed steps, stack length) pairs
observed after each successful step. -/
structure ForwardOut where
  result : SagaResult
  stack : List Comp
  error : Option String
  trace : List (ℕ × ℕ)
deriving DecidableEq

/-- The forward chain of the saga (steps 1-4 of cyberware-saga.ts,
lines 107-202): each successful step updates the running cost, stores its
result data, and pushes its compensation closure; step 4 (neural
integration) pushes none. -/
def runForward (req : RequestM) (env : SagaEnv) : ForwardOut :=
  let r := initResult
  if env.reserveOk = false then
    { result := r, stack := [], error := some ("reserveCyberware failed"), trace := [] }
  else
    let unitPrice := unitPriceOf req
    let r := { r with
      inventoryReserved := some unitPrice
      totalCost := r.totalCost + unitPrice }
    let stack : List Comp := [Comp.release unitPrice]
    let trace : List (ℕ × ℕ) := [(1, stack.length)]
    if env.scheduleOk = false then
      { result := r, stack := stack,
        error := some ("scheduleRipperdocAppointment failed"), trace := trace }
    else
      let depositPaid := depositOf req
      let r := { r with
        appointmentScheduled := some depositPaid
        totalCost := r.totalCost + depositPaid }
      let stack := Comp.cancel depositPaid :: stack
      let trace := trace ++ [(2, stack.length)]
      if env.payOk = false then
        { result := r, stack := stack,
          error := some ("processCredstickPayment failed"), trace := trace }
      else
        let amount := amountOf req
        let r := { r with
          paymentProcessed := some amount
          totalCost := amount }
        let stack := Comp.refund amount :: stack
        let trace := trace ++ [(3, stack.length)]
        if env.integrateOk = false then
          { result := r, stack := stack,
            error := some ("Neural integration failed"), trace := trace }
        else
          let r := { r with neuralIntegration := true }
          let trace := trace ++ [(4, stack.length)]
          { result := r, stack := stack, error := none, trace := trace }

/-- The whole saga with its event log: forward chain, then either the
success confirmation or the catch branch. A failure of the success
confirmation is caught by the same catch branch (it is inside the `try`). -/
def cyberwareInstallationSagaFull (req : RequestM) (env : SagaEnv) :
    SagaResult × List SEvent :=
  let f := runForward req env
  match f.error with
  | some e => catchPath env f.result f.stack e
  | none =>
    if env.confirmOk then
      ({ f.result with success := true, runnerNotified := true },
        [SEvent.confirmSent])
    else
      catchPath env f.result f.stack ("sendInstallationConfirmation failed")

/-- The saga's returned structured result. -/
def cyberwareInstallationSaga (req : RequestM) (env : SagaEnv) : SagaResult :=
  (cyberwareInstallationSagaFull req env).1

/-- The saga's event log. -/
def sagaLog (req : RequestM) (env : SagaEnv) : List SEvent :=
  (cyberwareInstallationSagaFull req env).2

/-- Number of forward steps the result records as successfully completed. -/
def stepsCompleted (r : SagaResult) : ℕ :=
  (if r.inventoryReserved.isSome then 1 else 0) +
  (if r.appointmentScheduled.isSome then 1 else 0) +
  (if r.paymentProcessed.isSome then 1 else 0) +
  (if r.neuralIntegration then 1 else 0)

/-- The compensation names registered for the steps a result records as
completed, in reverse completion order. -/
def expectedUnwindNames (r : SagaResult) : List String :=
  (if r.paymentProcessed.isSome then ["Refund credstick payment"] else []) ++
  (if r.appointmentScheduled.isSome then ["Cancel ripperdoc appointment"] else []) ++
  (if r.inventoryReserved.isSome then ["Release inventory reservation"] else [])

/-!
## Heist process manager embedding

The phase state machine of the heist activities file and the
`heistProcessManager` workflow. Activities act on the registry-held
`HeistProcess` record; a thrown activity error carries the (already
mutated) registry state with it, matching the persistent-registry semantics
of the source. Random draws are supplied as rational rolls in an oracle;
signals are observed at the workflow's checkpoints, numbered consecutively,
and an abort signal is described by the checkpoint index from which it is
visible.
-/

/-- The heist phases (shared/types.ts `HeistPhase`). -/
inductive HeistPhase
| planning
| team_assembly
| gear_acquisition
| infiltration
| execution
| extraction
| completed
| aborted
| compromised
deriving DecidableEq

/-- Team member status (shared/types.ts `HeistMember.status`). -/
inductive MemberStatus
| recruited
| ready
| in_position
| compromised
| extracted
| mia
deriving DecidableEq

/-- Security level of the target (shared/types.ts `HeistTarget`). -/
inductive SecurityLevel
| minimal
| standard
| high
| black_site
deriving DecidableEq

/-- Intel quality on the target (shared/types.ts `HeistTarget`). -/
inductive IntelQuality
| rumors
| partly
| detailed
| insider
deriving DecidableEq

/-- What triggered a phase transition (shared/types.ts `PhaseTransition`). -/
inductive TriggerSource
| workflow
| signal
| failure
deriving DecidableEq

/-- A heist team member (the fields the activities read). -/
structure HeistMember where
  handle : String
  cutPercentage : ℚ
  status : MemberStatus
deriving DecidableEq

/-- The heist target (the fields the activities read). -/
structure HeistTarget where
  securityLevel : SecurityLevel
  intelQuality : IntelQuality
  estimatedPayout : ℚ
deriving DecidableEq

/-- A phase transition record (shared/types.ts `PhaseTransition`). -/
structure PhaseTransition where
  fromPhase : HeistPhase
  toPhase : HeistPhase
  reason : String
  triggeredBy : TriggerSource
deriving DecidableEq

/-- The registry-held heist state (shared/types.ts `HeistProcess`). -/
structure HeistProcess where
  target : HeistTarget
  team : List HeistMember
  currentPhase : HeistPhase
  phaseHistory : List PhaseTransition
  budget : ℚ
  spent : ℚ
  alertLevel : ℚ
deriving DecidableEq

/-- `initializeHeist` of the heist activities: a fresh state in the planning
phase with empty history and team (the Lean name uses the British
spelling of the activity's name). -/
def initialiseHeist (target : HeistTarget) (budget : ℚ) : HeistProcess :=
  { target := target
    team := []
    currentPhase := HeistPhase.planning
    phaseHistory := []
    budget := budget
    spent := 0
    alertLevel := 0 }

/-- `transitionPhase` of the heist activities (lines 330-354): appends the
transition record and updates the current phase. The source performs no
legality check of the requested edge. -/
def transitionPhase (h : HeistProcess) (fromPhase toPhase : HeistPhase)
    (reason : String) (triggeredBy : TriggerSource) : HeistProcess :=
  { h with
    phaseHistory := h.phaseHistory ++
      [{ fromPhase := fromPhase, toPhase := toPhase, reason := reason,
         triggeredBy := triggeredBy }]
    currentPhase := toPhase }

/-- `recruitTeamMember`: a heat roll below 0.10 raises the alert level by 5;
the member is marked recruited and appended to the team. -/
def recruitTeamMember (h : HeistProcess) (m : HeistMember) (heatRoll : ℚ) :
    HeistProcess :=
  let h :=
    if heatRoll < 1/10 then { h with alertLevel := h.alertLevel + 5 } else h
  { h with team := h.team ++ [{ m with status := MemberStatus.recruited }] }

/-- `transitionToTeamAssembly`. -/
def transitionToTeamAssembly (h : HeistProcess) : HeistProcess :=
  transitionPhase h HeistPhase.planning HeistPhase.team_assembly
    ("Planning complete, assembling team") TriggerSource.workflow

/-- `transitionToGearAcquisition`. -/
def transitionToGearAcquisition (h : HeistProcess) : HeistProcess :=
  transitionPhase h HeistPhase.team_assembly HeistPhase.gear_acquisition
    ("Team assembled, acquiring gear") TriggerSource.workflow

/-- Lower-cased character list of a string (the `toLowerCase()` calls of the
gear check). -/
def lowerChars (s : String) : List Char :=
  s.toList.map Char.toLower

/-- Whether the character list `p` occurs at the start of `s`. -/
def charsStart : List Char → List Char → Bool
| _, [] => true
| [], _ :: _ => false
| a :: s, b :: p => a == b && charsStart s p

/-- Whether the character list `p` occurs anywhere inside `s`
(the `includes` call of the gear check). -/
def charsHave : List Char → List Char → Bool
| [], p => charsStart [] p
| s@(_ :: t), p => charsStart s p || charsHave t p

/-- The hot-merchandise check of `acquireGear`: the lower-cased gear type
contains one of the listed strings (note the source compares against the
literal "EMP device" with capital letters). -/
def isHotGear (gearType : String) : Bool :=
  [("military weapons"), ("explosives"), ("EMP device"), ("blackwall breach kit")].any
    (fun g => charsHave (lowerChars gearType) g.toList)

/-- `acquireGear`: throws when spend would exceed budget (state unchanged);
otherwise adds the cost to spent and raises the alert by 10 for hot gear. -/
def acquireGear (h : HeistProcess) (gearType : String) (cost : ℚ) :
    HeistProcess × Option String :=
  if h.budget < h.spent + cost then
    (h, some ("Insufficient budget"))
  else
    let h := { h with spent := h.spent + cost }
    let h :=
      if isHotGear gearType then { h with alertLevel := h.alertLevel + 10 }
      else h
    (h, none)

/-- Base infiltration chance by security level. -/
def baseChanceOf : SecurityLevel → ℚ
| SecurityLevel.minimal => 95/100
| SecurityLevel.standard => 85/100
| SecurityLevel.high => 70/100
| SecurityLevel.black_site => 50/100

/-- Intel bonus to the infiltration chance. -/
def intelBonusOf : IntelQuality → ℚ
| IntelQuality.insider => 15/100
| IntelQuality.detailed => 10/100
| IntelQuality.partly => 5/100
| IntelQuality.rumors => 0

/-- `beginInfiltration`: every member is put in position; a detection roll
above the success chance raises the alert by 25 and, at alert 75 or above,
throws (with the raised alert persisted); otherwise the
gear_acquisition → infiltration transition is appended. -/
def beginInfiltration (h : HeistProcess) (roll : ℚ) :
    HeistProcess × Option String :=
  let h1 := { h with
    team := h.team.map (fun m => { m with status := MemberStatus.in_position }) }
  let baseChance := baseChanceOf h1.target.securityLevel
  let intelBonus := intelBonusOf h1.target.intelQuality
  let alertPenalty := h1.alertLevel * (5/1000)
  let successChance := min (95/100) (baseChance + intelBonus - alertPenalty)
  if successChance < roll then
    let h2 := { h1 with alertLevel := h1.alertLevel + 25 }
    if 75 ≤ h2.alertLevel then
      (h2, some ("Infiltration failed - security alerted. Abort recommended."))
    else
      (transitionPhase h2 HeistPhase.gear_acquisition HeistPhase.infiltration
        ("Gear secured, infiltrating") TriggerSource.workflow, none)
  else
    (transitionPhase h1 HeistPhase.gear_acquisition HeistPhase.infiltration
      ("Gear secured, infiltrating") TriggerSource.workflow, none)

/-- One objective stage of `executeObjective`: a roll below 0.15 raises the
alert by 10, and at alert 100 or above the state transitions from the
current phase to compromised and the activity throws; an already-thrown
error passes through unchanged. -/
def executeObjectiveStage (acc : HeistProcess × Option String) (roll : ℚ) :
    HeistProcess × Option String :=
  match acc with
  | (h, some e) => (h, some e)
  | (h, none) =>
    if roll < 15/100 then
      let h := { h with alertLevel := h.alertLevel + 10 }
      if 100 ≤ h.alertLevel then
        (transitionPhase h h.currentPhase HeistPhase.compromised
          ("Alert level critical - operation blown") TriggerSource.failure,
          some ("OPERATION COMPROMISED - Security response incoming!"))
      else (h, none)
    else (h, none)

/-- `executeObjective`: four objective stages, then (if not compromised) the
infiltration → execution transition. -/
def executeObjective (h : HeistProcess) (roll : ℕ → ℚ) :
    HeistProcess × Option String :=
  match ((List.range 4).map roll).foldl executeObjectiveStage (h, none) with
  | (h, none) =>
    (transitionPhase h HeistPhase.infiltration HeistPhase.execution
      ("Objective complete") TriggerSource.workflow, none)
  | (h, some e) => (h, some e)

/-- `extractTeam`: each member is extracted when its roll lies below
`1 - alertLevel/200`, otherwise marked mia; then the
execution → extraction transition is appended. -/
def extractTeam (h : HeistProcess) (roll : ℕ → ℚ) : HeistProcess :=
  let team := h.team.enum.map (fun p =>
    let extractionChance := 1 - h.alertLevel / 200
    if roll p.1 < extractionChance then
      { p.2 with status := MemberStatus.extracted }
    else
      { p.2 with status := MemberStatus.mia })
  transitionPhase { h with team := team } HeistPhase.execution
    HeistPhase.extraction ("Team extraction complete") TriggerSource.workflow

/-- The alert penalty of the completion settlement in `completeHeist`
(line 259): zero at alert level 50 or below, otherwise
basePayout * (alertLevel - 50) / 200. -/
def completeHeistAlertPenalty (h : HeistProcess) : ℚ :=
  if 50 < h.alertLevel then
    h.target.estimatedPayout * (h.alertLevel - 50) / 200
  else 0

/-- The final payout of the completion settlement. -/
def completeHeistFinalPayout (h : HeistProcess) : ℚ :=
  h.target.estimatedPayout - completeHeistAlertPenalty h

/-- The surviving team of the completion settlement: members with status
extracted. -/
def completeHeistSurvivingTeam (h : HeistProcess) : List HeistMember :=
  h.team.filter (fun m => m.status = MemberStatus.extracted)

/-- The total cut of the surviving team (the `reduce` of line 264). -/
def completeHeistTotalCut (h : HeistProcess) : ℚ :=
  (completeHeistSurvivingTeam h).foldl (fun sum m => sum + m.cutPercentage) 0

/-- The organiser's take logged by `completeHeist`. -/
def completeHeistYourTake (h : HeistProcess) : ℚ :=
  completeHeistFinalPayout h * (100 - completeHeistTotalCut h) / 100

/-- `completeHeist`: the settlement is computed and logged and the
extraction → completed transition is appended. -/
def completeHeist (h : HeistProcess) : HeistProcess :=
  transitionPhase h HeistPhase.extraction HeistPhase.completed
    ("Operation successful") TriggerSource.workflow

/-- `abortHeist`: phase-dependent compensation, then a transition from the
captured current phase to aborted. In the infiltration and execution phases
every member is extracted exactly when its roll lies below the fixed 0.7
threshold of line 307 (the threshold does not read the alert level),
otherwise marked mia. -/
def abortHeist (h : HeistProcess) (reason : String) (roll : ℕ → ℚ) :
    HeistProcess :=
  let phase := h.currentPhase
  let h :=
    if phase = HeistPhase.planning ∨ phase = HeistPhase.team_assembly then
      { h with team := h.team.map (fun m => { m with status := MemberStatus.extracted }) }
    else if phase = HeistPhase.gear_acquisition then h
    else if phase = HeistPhase.infiltration ∨ phase = HeistPhase.execution then
      { h with team := h.team.enum.map (fun p =>
          if roll p.1 < 7/10 then { p.2 with status := MemberStatus.extracted }
          else { p.2 with status := MemberStatus.mia }) }
    else h
  transitionPhase h phase HeistPhase.aborted ("Aborted: " ++ reason)
    TriggerSource.signal

/-- Configuration of a heist process (`HeistConfig` in the workflow file). -/
structure HeistConfig where
  target : HeistTarget
  budget : ℚ
  team : List HeistMember
  gear : List (String × ℚ)

/-- The random rolls consumed by the heist activities of one run. -/
structure HeistOracle where
  heatRoll : ℕ → ℚ
  infilRoll : ℚ
  execRoll : ℕ → ℚ
  extractRoll : ℕ → ℚ
  abortRoll : ℕ → ℚ

/-- Signals arriving to the process manager. Signal effects are consulted
only at the workflow's checkpoints, which are numbered consecutively; an
abort signal is described by the first checkpoint index from which the
`abortRequested` flag is visible. An alert-update accumulation visible at
the single point where the workflow folds it into the heist state is given
as `alertDelta`. The team-ready confirmation only ends the bounded wait
early, and the timeout proceeds as if confirmed, so it has no further
effect on control flow. -/
structure SignalEnv where
  abortArrival : Option ℕ
  abortReason : String
  alertDelta : ℚ

/-- Whether the abort flag is set by checkpoint `t`. -/
def abortBy (sig : SignalEnv) (t : ℕ) : Bool :=
  match sig.abortArrival with
  | some a => decide (a ≤ t)
  | none => false

/-- The workflow-local flag state mutated by the signal handlers. -/
structure SignalFlags where
  abortRequested : Bool
  abortReason : String
  teamConfirmed : Bool
  alertUpdateAccum : ℚ

/-- The `updateAlertLevelSignal` handler of the process-manager workflow
(lines 135-144): accumulate the delta and auto-abort when the last observed
heist alert level plus the accumulated update reaches the critical
threshold of 100. -/
def handleUpdateAlertLevel (heist : Option HeistProcess)
    (flags : SignalFlags) (alertDelta : ℚ) (source : String) : SignalFlags :=
  let flags := { flags with
    alertUpdateAccum := flags.alertUpdateAccum + alertDelta }
  match heist with
  | some h =>
    if 100 ≤ h.alertLevel + flags.alertUpdateAccum then
      { flags with
        abortRequested := true
        abortReason := "Critical alert level from " ++ source }
    else flags
  | none => flags

/-- The team recruiting loop of the process manager (lines 180-183): one
checkpoint before each recruit; the loop breaks as soon as the abort flag is
observed. -/
def recruitLoop (h : HeistProcess) (team : List HeistMember) (heat : ℕ → ℚ)
    (sig : SignalEnv) (t : ℕ) : HeistProcess :=
  match team with
  | [] => h
  | m :: rest =>
    if abortBy sig t then h
    else recruitLoop (recruitTeamMember h m (heat t)) rest heat sig (t + 1)

/-- The gear acquisition loop of the process manager (lines 215-218): one
checkpoint before each item; the loop breaks on the abort flag, and an
`acquireGear` error (over budget) aborts the loop with the error pending. -/
def gearLoop (h : HeistProcess) (gear : List (String × ℚ)) (sig : SignalEnv)
    (t : ℕ) : HeistProcess × Option String :=
  match gear with
  | [] => (h, none)
  | g :: rest =>
    if abortBy sig t then (h, none)
    else
      match acquireGear h g.1 g.2 with
      | (h1, some e) => (h1, some e)
      | (h1, none) => gearLoop h1 rest sig (t + 1)

/-- Phases 4-7 of the `heistProcessManager` workflow, from the state after
the external alert update is applied; `t` is the index of the
post-infiltration checkpoint. `beginInfiltration` and `executeObjective`
errors are caught and routed into `abortHeist` (on the state the thrown
activity left in the registry). -/
def pmPhases4to7 (h2 : HeistProcess) (o : HeistOracle) (sig : SignalEnv)
    (t : ℕ) : HeistProcess × Option String :=
  match beginInfiltration h2 o.infilRoll with
  | (h3, some e) =>
    (abortHeist h3 ("Infiltration failure: " ++ e) o.abortRoll, none)
  | (h3, none) =>
    if abortBy sig t then (abortHeist h3 sig.abortReason o.abortRoll, none)
    else
      match executeObjective h3 o.execRoll with
      | (h4, some e) =>
        (abortHeist h4 ("Execution failure: " ++ e) o.abortRoll, none)
      | (h4, none) =>
        if abortBy sig (t + 1) then
          (abortHeist h4 sig.abortReason o.abortRoll, none)
        else
          let h5 := extractTeam h4 o.extractRoll
          (completeHeist h5, none)

/-- The `heistProcessManager` workflow. Checkpoints are numbered 0 (after
initialization), 1..n before each recruit, n+1 (after recruiting), n+2 (the
bounded wait for team confirmation), n+3..n+2+g before each gear item,
n+g+3 (after gear), n+g+4 (after infiltration), n+g+5 (after execution).
An abort observed at a checkpoint returns the `abortHeist` compensation. A
`beginInfiltration` or `executeObjective` error is caught and routed into
`abortHeist`; a `gearLoop` error is NOT caught and propagates to the caller
(the second component of the returned pair). The accumulated alert update
is folded into the state once, between the post-gear checkpoint and
infiltration (lines 225-229). -/
def heistProcessManager (cfg : HeistConfig) (o : HeistOracle)
    (sig : SignalEnv) : HeistProcess × Option String :=
  let h := initialiseHeist cfg.target cfg.budget
  if abortBy sig 0 then (abortHeist h sig.abortReason o.abortRoll, none)
  else
    let h := transitionToTeamAssembly h
    let h := recruitLoop h cfg.team o.heatRoll sig 1
    let n := cfg.team.length
    if abortBy sig (n + 1) then (abortHeist h sig.abortReason o.abortRoll, none)
    else if abortBy sig (n + 2) then (abortHeist h sig.abortReason o.abortRoll, none)
    else
      let h := transitionToGearAcquisition h
      match gearLoop h cfg.gear sig (n + 3) with
      | (h1, some e) => (h1, some e)
      | (h1, none) =>
        let g := cfg.gear.length
        if abortBy sig (n + g + 3) then
          (abortHeist h1 sig.abortReason o.abortRoll, none)
        else
          let h2 :=
            if sig.alertDelta ≠ 0 then
              { h1 with alertLevel := h1.alertLevel + sig.alertDelta }
            else h1
          pmPhases4to7 h2 o sig (n + g + 4)

/-- The legal forward edges declared by the specification's phase graph:
the chain planning → team_assembly → gear_acquisition → infiltration →
execution → extraction → completed. (This definition follows the
specification's words, to compare the code's behaviour against it.) -/
def specLegalForwardEdge : HeistPhase → HeistPhase → Bool
| HeistPhase.planning, HeistPhase.team_assembly => true
| HeistPhase.team_assembly, HeistPhase.gear_acquisition => true
| HeistPhase.gear_acquisition, HeistPhase.infiltration => true
| HeistPhase.infiltration, HeistPhase.execution => true
| HeistPhase.execution, HeistPhase.extraction => true
| HeistPhase.extraction, HeistPhase.completed => true
| _, _ => false

/-- The transition records the heist workflow can actually produce: a legal
forward edge, or an abort edge from any phase, or the
infiltration → compromised failure edge. -/
def allowedRec (rec : PhaseTransition) : Bool :=
  specLegalForwardEdge rec.fromPhase rec.toPhase ||
  decide (rec.toPhase = HeistPhase.aborted) ||
  decide (rec.fromPhase = HeistPhase.infiltration ∧
    rec.toPhase = HeistPhase.compromised ∧
    rec.triggeredBy = TriggerSource.failure)

/-- The phase history chains: each record starts at the phase the previous
record ended at. -/
def chainFromB : HeistPhase → List PhaseTransition → Bool
| _, [] => true
| p, rec :: rest => decide (rec.fromPhase = p) && chainFromB rec.toPhase rest

/-- The phase a history ends at, starting from `p`. -/
def endPhase : HeistPhase → List PhaseTransition → HeistPhase
| p, [] => p
| _, rec :: rest => endPhase rec.toPhase rest

/-- The history invariant of a heist state: every record is an allowed
edge, the records chain from the planning phase, and the current phase is
the phase the history ends at. -/
def histInv (h : HeistProcess) : Prop :=
  h.phaseHistory.all allowedRec = true ∧
  chainFromB HeistPhase.planning h.phaseHistory = true ∧
  endPhase HeistPhase.planning h.phaseHistory = h.currentPhase

/-!
## Concrete fixtures

Concrete requests, environments and heist inputs used by witnesses and
counterexamples.
-/

/-- A standard request: 1000 eurodollar street chrome, no reputation. -/
def reqStd : RequestM :=
  ⟨1000, 0, Urgency.standard, InstallDifficulty.routine⟩

/-- An environment in which every activity call succeeds. -/
def envAllOk : SagaEnv :=
  ⟨true, true, true, true, true, some 800, true, some true, true, true⟩

/-- Every step succeeds but the success confirmation call fails. -/
def envConfirmFail : SagaEnv := { envAllOk with confirmOk := false }

/-- Neural integration (step 4) fails; compensations succeed. -/
def envStep4Fail : SagaEnv := { envAllOk with integrateOk := false }

/-- Neural integration fails and the emergency stabilization call fails. -/
def envStep4EmFail : SagaEnv :=
  { envAllOk with integrateOk := false, emergencyOutcome := none }

/-- Neural integration fails and the cancel compensation fails. -/
def envCancelCompFail : SagaEnv :=
  { envAllOk with integrateOk := false, cancelOutcome := none }

/-- Appointment scheduling (step 2) fails; compensations succeed. -/
def envStep2Fail : SagaEnv := { envAllOk with scheduleOk := false }

/-- An easy heist target: minimal security, insider intel, 10000 payout. -/
def targetEasy : HeistTarget :=
  ⟨SecurityLevel.minimal, IntelQuality.insider, 10000⟩

/-- An oracle whose rolls are all 1 (no random event fires). -/
def oracleUnit : HeistOracle :=
  ⟨fun _ => 1, 1, fun _ => 1, fun _ => 1, fun _ => 1⟩

/-- No signals arrive. -/
def sigNone : SignalEnv := ⟨none, "", 0⟩

/-- An abort signal visible from the very first checkpoint. -/
def sigAbortAt0 : SignalEnv := ⟨some 0, "cold feet", 0⟩

/-- A zero-budget heist config with one 100-eurodollar gear item. -/
def cfgGearBust : HeistConfig :=
  ⟨targetEasy, 0, [], [("assault rifle", 100)]⟩

/-- A zero-gear, zero-team config used to drive the run into the
compromised path. -/
def cfgCompromise : HeistConfig := ⟨targetEasy, 0, [], []⟩

/-- Rolls that trigger every execution-stage alert but no infiltration
detection. -/
def oracleRisky : HeistOracle :=
  ⟨fun _ => 1, 1/2, fun _ => 1/10, fun _ => 1, fun _ => 1⟩

/-- An accumulated alert update of 60 visible at the application point. -/
def sigAlert60 : SignalEnv := ⟨none, "", 60⟩

/-- A single team member in position. -/
def memberJackie : HeistMember := ⟨"jackie", 30, MemberStatus.in_position⟩

/-- A heist state mid-infiltration at a given alert level. -/
def heistInfil (alert : ℚ) : HeistProcess :=
  ⟨targetEasy, [memberJackie], HeistPhase.infiltration, [], 1000, 0, alert⟩

/-- A constant roll of 0.69, just below the fixed abort-extraction
threshold. -/
def roll69 : ℕ → ℚ := fun _ => 69/100

/-- A settled heist state used by the completion-settlement witness: two
extracted members and one missing member. -/
def heistSettled : HeistProcess :=
  ⟨targetEasy,
    [⟨"panam", 30, MemberStatus.extracted⟩,
     ⟨"judy", 20, MemberStatus.extracted⟩,
     ⟨"river", 25, MemberStatus.mia⟩],
    HeistPhase.extraction, [], 1000, 0, 70⟩

/-- The name recorded for a compensation attempt: the plain name on
success, the "(FAILED)" marked name otherwise. -/
def unwindName (env : SagaEnv) (c : Comp) : String :=
  if compOk env c then compName c else compName c ++ " (FAILED)"

/-- The planning → team_assembly record of the compromise run. -/
def recTA : PhaseTransition :=
  { fromPhase := HeistPhase.planning, toPhase := HeistPhase.team_assembly,
    reason := "Planning complete, assembling team",
    triggeredBy := TriggerSource.workflow }

/-- The team_assembly → gear_acquisition record of the compromise run. -/
def recGA : PhaseTransition :=
  { fromPhase := HeistPhase.team_assembly,
    toPhase := HeistPhase.gear_acquisition,
    reason := "Team assembled, acquiring gear",
    triggeredBy := TriggerSource.workflow }

/-- The gear_acquisition → infiltration record of the compromise run. -/
def recInf : PhaseTransition :=
  { fromPhase := HeistPhase.gear_acquisition,
    toPhase := HeistPhase.infiltration,
    reason := "Gear secured, infiltrating",
    triggeredBy := TriggerSource.workflow }

/-- The infiltration → compromised record of the compromise run. -/
def recC : PhaseTransition :=
  { fromPhase := HeistPhase.infiltration, toPhase := HeistPhase.compromised,
    reason := "Alert level critical - operation blown",
    triggeredBy := TriggerSource.failure }

/-- The compromise-run state entering infiltration (alert 60 after the
applied update). -/
def hB : HeistProcess :=
  ⟨targetEasy, [], HeistPhase.gear_acquisition, [recTA, recGA], 0, 0, 60⟩

/-- The compromise-run state in infiltration. -/
def hI : HeistProcess :=
  ⟨targetEasy, [], HeistPhase.infiltration, [recTA, recGA, recInf], 0, 0, 60⟩

/-- The compromise-run state after the compromised transition. -/
def hC : HeistProcess :=
  ⟨targetEasy, [], HeistPhase.compromised, [recTA, recGA, recInf, recC],
    0, 0, 100⟩

/-!
## Structural lemmas about the saga's unwind
-/

theorem compExecute_eq_none (env : SagaEnv) (r : SagaResult) (c : Comp) :
    compExecute env r c = none ↔ compOk env c = false := by
  cases c with
  | release up =>
    simp only [compExecute, compOk]
    split <;> simp_all
  | cancel dep =>
    simp only [compExecute, compOk]
    cases env.cancelOutcome <;> simp
  | refund amt =>
    simp only [compExecute, compOk]
    split <;> simp_all

theorem compExecute_some_fields (env : SagaEnv) (r r1 : SagaResult)
    (c : Comp) (h : compExecute env r c = some r1) :
    r1.compensationsExecuted = r.compensationsExecuted ∧
    r1.inventoryReserved = r.inventoryReserved ∧
    r1.appointmentScheduled = r.appointmentScheduled ∧
    r1.paymentProcessed = r.paymentProcessed ∧
    r1.neuralIntegration = r.neuralIntegration ∧
    r1.success = r.success ∧
    r1.failureReason = r.failureReason ∧
    r1.failedAtStep = r.failedAtStep := by
  cases c with
  | release up =>
    simp only [compExecute] at h
    split at h
    · cases h; split <;> simp
    · cases h
  | cancel dep =>
    simp only [compExecute] at h
    cases hc : env.cancelOutcome with
    | some b => rw [hc] at h; cases h; split <;> simp
    | none => rw [hc] at h; cases h
  | refund amt =>
    simp only [compExecute] at h
    split at h
    · cases h; simp
    · cases h

theorem compExecute_isSome (env : SagaEnv) (r : SagaResult) (c : Comp) :
    (compExecute env r c).isSome = compOk env c := by
  cases c with
  | release up =>
    simp only [compExecute, compOk]
    split <;> simp_all
  | cancel dep =>
    simp only [compExecute, compOk]
    cases env.cancelOutcome <;> simp
  | refund amt =>
    simp only [compExecute, compOk]
    split <;> simp_all

theorem execComp_comps (env : SagaEnv) (acc : SagaResult × List SEvent)
    (c : Comp) :
    ((execComp env acc c).1).compensationsExecuted =
      acc.1.compensationsExecuted ++ [unwindName env c] := by
  unfold execComp unwindName
  cases hc : compExecute env acc.1 c with
  | some r1 =>
    have hok : compOk env c = true := by
      rw [← compExecute_isSome env acc.1 c, hc]; rfl
    simp [hok, (compExecute_some_fields env acc.1 r1 c hc).1]
  | none =>
    have hok : compOk env c = false := by
      rw [← compExecute_isSome env acc.1 c, hc]; rfl
    simp [hok]

theorem execComp_log (env : SagaEnv) (acc : SagaResult × List SEvent)
    (c : Comp) :
    (execComp env acc c).2 = acc.2 ++ [SEvent.comp (compName c) (compOk env c)] := by
  unfold execComp
  cases hc : compExecute env acc.1 c with
  | some r1 =>
    have hok : compOk env c = true := by
      rw [← compExecute_isSome env acc.1 c, hc]; rfl
    simp [hok]
  | none =>
    have hok : compOk env c = false := by
      rw [← compExecute_isSome env acc.1 c, hc]; rfl
    simp [hok]

theorem execComp_fields (env : SagaEnv) (acc : SagaResult × List SEvent)
    (c : Comp) :
    ((execComp env acc c).1).inventoryReserved = acc.1.inventoryReserved ∧
    ((execComp env acc c).1).appointmentScheduled = acc.1.appointmentScheduled ∧
    ((execComp env acc c).1).paymentProcessed = acc.1.paymentProcessed ∧
    ((execComp env acc c).1).neuralIntegration = acc.1.neuralIntegration ∧
    ((execComp env acc c).1).success = acc.1.success ∧
    ((execComp env acc c).1).failureReason = acc.1.failureReason ∧
    ((execComp env acc c).1).failedAtStep = acc.1.failedAtStep := by
  unfold execComp
  cases hc : compExecute env acc.1 c with
  | some r1 =>
    obtain ⟨-, h2, h3, h4, h5, h6, h7, h8⟩ :=
      compExecute_some_fields env acc.1 r1 c hc
    simp [h2, h3, h4, h5, h6, h7, h8]
  | none => simp

theorem unwindAll_comps (env : SagaEnv) (stack : List Comp) :
    ∀ start : SagaResult × List SEvent,
      ((unwindAll env stack start).1).compensationsExecuted =
        start.1.compensationsExecuted ++ stack.map (unwindName env) := by
  induction stack with
  | nil => intro start; simp [unwindAll]
  | cons c rest ih =>
    intro start
    have : unwindAll env (c :: rest) start =
        unwindAll env rest (execComp env start c) := rfl
    rw [this, ih (execComp env start c), execComp_comps]
    simp

theorem unwindAll_log (env : SagaEnv) (stack : List Comp) :
    ∀ start : SagaResult × List SEvent,
      (unwindAll env stack start).2 =
        start.2 ++ stack.map (fun c => SEvent.comp (compName c) (compOk env c)) := by
  induction stack with
  | nil => intro start; simp [unwindAll]
  | cons c rest ih =>
    intro start
    have : unwindAll env (c :: rest) start =
        unwindAll env rest (execComp env start c) := rfl
    rw [this, ih (execComp env start c), execComp_log]
    simp

theorem unwindAll_fields (env : SagaEnv) (stack : List Comp) :
    ∀ start : SagaResult × List SEvent,
      ((unwindAll env stack start).1).inventoryReserved = start.1.inventoryReserved ∧
      ((unwindAll env stack start).1).appointmentScheduled = start.1.appointmentScheduled ∧
      ((unwindAll env stack start).1).paymentProcessed = start.1.paymentProcessed ∧
      ((unwindAll env stack start).1).neuralIntegration = start.1.neuralIntegration ∧
      ((unwindAll env stack start).1).success = start.1.success ∧
      ((unwindAll env stack start).1).failureReason = start.1.failureReason ∧
      ((unwindAll env stack start).1).failedAtStep = start.1.failedAtStep := by
  induction stack with
  | nil => intro start; simp [unwindAll]
  | cons c rest ih =>
    intro start
    have hstep : unwindAll env (c :: rest) start =
        unwindAll env rest (execComp env start c) := rfl
    rw [hstep]
    obtain ⟨a1, a2, a3, a4, a5, a6, a7⟩ := execComp_fields env start c
    obtain ⟨b1, b2, b3, b4, b5, b6, b7⟩ := ih (execComp env start c)
    exact ⟨by rw [b1, a1], by rw [b2, a2], by rw [b3, a3], by rw [b4, a4],
      by rw [b5, a5], by rw [b6, a6], by rw [b7, a7]⟩

theorem finishUnwind_comps (env : SagaEnv) (stack : List Comp)
    (r : SagaResult) (log : List SEvent) :
    ((finishUnwind env stack r log).1).compensationsExecuted =
      r.compensationsExecuted ++ stack.map (unwindName env) := by
  unfold finishUnwind
  have h := unwindAll_comps env stack (r, log)
  split <;> simpa using h

theorem finishUnwind_log (env : SagaEnv) (stack : List Comp)
    (r : SagaResult) (log : List SEvent) :
    (finishUnwind env stack r log).2 =
      log ++ stack.map (fun c => SEvent.comp (compName c) (compOk env c)) ++
        [SEvent.notify env.notifyOk] := by
  unfold finishUnwind
  have h := unwindAll_log env stack (r, log)
  simp [h]

theorem finishUnwind_fields (env : SagaEnv) (stack : List Comp)
    (r : SagaResult) (log : List SEvent) :
    ((finishUnwind env stack r log).1).inventoryReserved = r.inventoryReserved ∧
    ((finishUnwind env stack r log).1).appointmentScheduled = r.appointmentScheduled ∧
    ((finishUnwind env stack r log).1).paymentProcessed = r.paymentProcessed ∧
    ((finishUnwind env stack r log).1).neuralIntegration = r.neuralIntegration ∧
    ((finishUnwind env stack r log).1).success = r.success ∧
    ((finishUnwind env stack r log).1).failureReason = r.failureReason ∧
    ((finishUnwind env stack r log).1).failedAtStep = r.failedAtStep := by
  unfold finishUnwind
  obtain ⟨a1, a2, a3, a4, a5, a6, a7⟩ := unwindAll_fields env stack (r, log)
  constructor
  · split <;> simpa using a1
  constructor
  · split <;> simpa using a2
  constructor
  · split <;> simpa using a3
  constructor
  · split <;> simpa using a4
  constructor
  · split <;> simpa using a5
  constructor
  · split <;> simpa using a6
  · split <;> simpa using a7

theorem finishUnwind_inventoryReserved (env : SagaEnv) (stack : List Comp)
    (r : SagaResult) (log : List SEvent) :
    ((finishUnwind env stack r log).1).inventoryReserved = r.inventoryReserved :=
  (finishUnwind_fields env stack r log).1

theorem finishUnwind_appointment (env : SagaEnv) (stack : List Comp)
    (r : SagaResult) (log : List SEvent) :
    ((finishUnwind env stack r log).1).appointmentScheduled = r.appointmentScheduled :=
  (finishUnwind_fields env stack r log).2.1

theorem finishUnwind_payment (env : SagaEnv) (stack : List Comp)
    (r : SagaResult) (log : List SEvent) :
    ((finishUnwind env stack r log).1).paymentProcessed = r.paymentProcessed :=
  (finishUnwind_fields env stack r log).2.2.1

theorem finishUnwind_neural (env : SagaEnv) (stack : List Comp)
    (r : SagaResult) (log : List SEvent) :
    ((finishUnwind env stack r log).1).neuralIntegration = r.neuralIntegration :=
  (finishUnwind_fields env stack r log).2.2.2.1

theorem finishUnwind_success (env : SagaEnv) (stack : List Comp)
    (r : SagaResult) (log : List SEvent) :
    ((finishUnwind env stack r log).1).success = r.success :=
  (finishUnwind_fields env stack r log).2.2.2.2.1

theorem finishUnwind_failureReason (env : SagaEnv) (stack : List Comp)
    (r : SagaResult) (log : List SEvent) :
    ((finishUnwind env stack r log).1).failureReason = r.failureReason :=
  (finishUnwind_fields env stack r log).2.2.2.2.2.1

theorem finishUnwind_failedAtStep (env : SagaEnv) (stack : List Comp)
    (r : SagaResult) (log : List SEvent) :
    ((finishUnwind env stack r log).1).failedAtStep = r.failedAtStep :=
  (finishUnwind_fields env stack r log).2.2.2.2.2.2

theorem catchPath_comps (env : SagaEnv) (r0 : SagaResult)
    (stack : List Comp) (e : String) :
    ((catchPath env r0 stack e).1).compensationsExecuted =
      r0.compensationsExecuted ++ stack.map (unwindName env) := by
  by_cases hcond : r0.appointmentScheduled.isSome = true ∧ 3 ≤ stack.length
  · unfold catchPath
    rw [if_pos hcond]
    cases env.emergencyOutcome <;> simp [finishUnwind_comps]
  · unfold catchPath
    rw [if_neg hcond]
    simp [finishUnwind_comps]

theorem catchPath_log (env : SagaEnv) (r0 : SagaResult)
    (stack : List Comp) (e : String) :
    (catchPath env r0 stack e).2 =
      (if r0.appointmentScheduled.isSome = true ∧ 3 ≤ stack.length then
        [SEvent.emergencyStab env.emergencyOutcome.isSome] else []) ++
      stack.map (fun c => SEvent.comp (compName c) (compOk env c)) ++
        [SEvent.notify env.notifyOk] := by
  by_cases hcond : r0.appointmentScheduled.isSome = true ∧ 3 ≤ stack.length
  · unfold catchPath
    rw [if_pos hcond, if_pos hcond]
    cases env.emergencyOutcome <;> simp [finishUnwind_log]
  · unfold catchPath
    rw [if_neg hcond, if_neg hcond]
    simp [finishUnwind_log]

theorem catchPath_inventoryReserved (env : SagaEnv) (r0 : SagaResult)
    (stack : List Comp) (e : String) :
    ((catchPath env r0 stack e).1).inventoryReserved = r0.inventoryReserved := by
  by_cases hcond : r0.appointmentScheduled.isSome = true ∧ 3 ≤ stack.length
  · unfold catchPath
    rw [if_pos hcond]
    cases env.emergencyOutcome <;> simp [finishUnwind_inventoryReserved]
  · unfold catchPath
    rw [if_neg hcond]
    simp [finishUnwind_inventoryReserved]

theorem catchPath_appointment (env : SagaEnv) (r0 : SagaResult)
    (stack : List Comp) (e : String) :
    ((catchPath env r0 stack e).1).appointmentScheduled = r0.appointmentScheduled := by
  by_cases hcond : r0.appointmentScheduled.isSome = true ∧ 3 ≤ stack.length
  · unfold catchPath
    rw [if_pos hcond]
    cases env.emergencyOutcome <;> simp [finishUnwind_appointment]
  · unfold catchPath
    rw [if_neg hcond]
    simp [finishUnwind_appointment]

theorem catchPath_payment (env : SagaEnv) (r0 : SagaResult)
    (stack : List Comp) (e : String) :
    ((catchPath env r0 stack e).1).paymentProcessed = r0.paymentProcessed := by
  by_cases hcond : r0.appointmentScheduled.isSome = true ∧ 3 ≤ stack.length
  · unfold catchPath
    rw [if_pos hcond]
    cases env.emergencyOutcome <;> simp [finishUnwind_payment]
  · unfold catchPath
    rw [if_neg hcond]
    simp [finishUnwind_payment]

theorem catchPath_neural (env : SagaEnv) (r0 : SagaResult)
    (stack : List Comp) (e : String) :
    ((catchPath env r0 stack e).1).neuralIntegration = r0.neuralIntegration := by
  by_cases hcond : r0.appointmentScheduled.isSome = true ∧ 3 ≤ stack.length
  · unfold catchPath
    rw [if_pos hcond]
    cases env.emergencyOutcome <;> simp [finishUnwind_neural]
  · unfold catchPath
    rw [if_neg hcond]
    simp [finishUnwind_neural]

theorem catchPath_success (env : SagaEnv) (r0 : SagaResult)
    (stack : List Comp) (e : String) :
    ((catchPath env r0 stack e).1).success = r0.success := by
  by_cases hcond : r0.appointmentScheduled.isSome = true ∧ 3 ≤ stack.length
  · unfold catchPath
    rw [if_pos hcond]
    cases env.emergencyOutcome <;> simp [finishUnwind_success]
  · unfold catchPath
    rw [if_neg hcond]
    simp [finishUnwind_success]

theorem catchPath_failureReason (env : SagaEnv) (r0 : SagaResult)
    (stack : List Comp) (e : String) :
    ((catchPath env r0 stack e).1).failureReason = some e := by
  by_cases hcond : r0.appointmentScheduled.isSome = true ∧ 3 ≤ stack.length
  · unfold catchPath
    rw [if_pos hcond]
    cases env.emergencyOutcome <;> simp [finishUnwind_failureReason]
  · unfold catchPath
    rw [if_neg hcond]
    simp [finishUnwind_failureReason]

theorem catchPath_failedAtStep (env : SagaEnv) (r0 : SagaResult)
    (stack : List Comp) (e : String) :
    ((catchPath env r0 stack e).1).failedAtStep =
      some ("Step " ++ toString (stack.length + 1)) := by
  by_cases hcond : r0.appointmentScheduled.isSome = true ∧ 3 ≤ stack.length
  · unfold catchPath
    rw [if_pos hcond]
    cases env.emergencyOutcome <;> simp [finishUnwind_failedAtStep]
  · unfold catchPath
    rw [if_neg hcond]
    simp [finishUnwind_failedAtStep]


theorem unwindName_or (env : SagaEnv) (c : Comp) :
    unwindName env c = compName c ∨
    unwindName env c = compName c ++ " (FAILED)" := by
  unfold unwindName
  split <;> simp

theorem forall2_unwind (env : SagaEnv) (stack : List Comp) :
    List.Forall₂ (fun entry nm => entry = nm ∨ entry = nm ++ " (FAILED)")
      (stack.map (unwindName env)) (stack.map compName) := by
  induction stack with
  | nil => simp
  | cons c rest ih =>
    simp only [List.map_cons, List.forall₂_cons]
    exact ⟨unwindName_or env c, ih⟩

/-- Claim C4: on a saga failure the unwind runs to completion: every
registered compensation is attempted (one recorded entry per registered
compensation, equal to its name or to the name with a "(FAILED)" marker for
a caught compensation failure), so a failing compensation does not prevent
the remaining ones. -/
theorem claim4_unwind_total (req : RequestM) (env : SagaEnv)
    (hfail : (cyberwareInstallationSaga req env).success = false) :
    (cyberwareInstallationSaga req env).compensationsExecuted.length =
      (expectedUnwindNames (cyberwareInstallationSaga req env)).length ∧
    List.Forall₂ (fun entry nm => entry = nm ∨ entry = nm ++ " (FAILED)")
      (cyberwareInstallationSaga req env).compensationsExecuted
      (expectedUnwindNames (cyberwareInstallationSaga req env)) := by
  obtain ⟨rOk, sOk, pOk, iOk, cOk, em, rel, can, ref, nOk⟩ := env
  cases rOk <;> cases sOk <;> cases pOk <;> cases iOk <;> cases cOk <;>
    cases rel <;> cases can <;> cases ref <;>
    simp_all [cyberwareInstallationSaga, cyberwareInstallationSagaFull,
      runForward, catchPath_comps, catchPath_inventoryReserved,
      catchPath_appointment, catchPath_payment, catchPath_neural,
      expectedUnwindNames, initResult, unwindName, compOk, compName]

/-- Claim C4 witness: neural integration fails and the cancel compensation
itself fails; the unwind still attempts all three registered
compensations. -/
theorem claim4_unwind_total_witness :
    (cyberwareInstallationSaga reqStd envCancelCompFail).compensationsExecuted.length =
      (expectedUnwindNames (cyberwareInstallationSaga reqStd envCancelCompFail)).length ∧
    List.Forall₂ (fun entry nm => entry = nm ∨ entry = nm ++ " (FAILED)")
      (cyberwareInstallationSaga reqStd envCancelCompFail).compensationsExecuted
      (expectedUnwindNames (cyberwareInstallationSaga reqStd envCancelCompFail)) :=
  claim4_unwind_total reqStd envCancelCompFail (by
    norm_num [cyberwareInstallationSaga, cyberwareInstallationSagaFull,
      runForward, envCancelCompFail, envAllOk, catchPath_success, initResult])

/-- Claim C1 counterexample: when all four forward steps complete and the
success-confirmation call fails, the saga fails after exactly 4 completed
forward steps but only 3 compensations are attempted (neural integration
registers no compensation), contradicting the claim's "exactly N
compensations" at N = 4. -/
theorem claim1_counterexample :
    (cyberwareInstallationSaga reqStd envConfirmFail).success = false ∧
    stepsCompleted (cyberwareInstallationSaga reqStd envConfirmFail) = 4 ∧
    (cyberwareInstallationSaga reqStd envConfirmFail).compensationsExecuted.length = 3 := by
  norm_num [cyberwareInstallationSaga, cyberwareInstallationSagaFull,
    runForward, envConfirmFail, envAllOk, stepsCompleted, catchPath_success,
    catchPath_comps, catchPath_inventoryReserved, catchPath_appointment,
    catchPath_payment, catchPath_neural, initResult]

/-- Claim C1 (amended): on saga failure, the number of attempted
compensations equals min(N, 3) for N completed forward steps — exactly N
whenever the failure happened at a forward step (N ≤ 3), while a failure of
the post-step confirmation (N = 4) attempts only the 3 registered
compensations — and when the compensation activities succeed the recorded
list is exactly the registered compensations in reverse completion order. -/
theorem claim1_reverse_order (req : RequestM) (env : SagaEnv)
    (hfail : (cyberwareInstallationSaga req env).success = false) :
    (cyberwareInstallationSaga req env).compensationsExecuted.length =
      min (stepsCompleted (cyberwareInstallationSaga req env)) 3 ∧
    (env.releaseOk = true → env.cancelOutcome.isSome = true →
      env.refundOk = true →
      (cyberwareInstallationSaga req env).compensationsExecuted =
        expectedUnwindNames (cyberwareInstallationSaga req env)) := by
  obtain ⟨rOk, sOk, pOk, iOk, cOk, em, rel, can, ref, nOk⟩ := env
  cases rOk <;> cases sOk <;> cases pOk <;> cases iOk <;> cases cOk <;>
    cases rel <;> cases can <;> cases ref <;>
    simp_all [cyberwareInstallationSaga, cyberwareInstallationSagaFull,
      runForward, catchPath_comps, catchPath_inventoryReserved,
      catchPath_appointment, catchPath_payment, catchPath_neural,
      expectedUnwindNames, stepsCompleted, initResult, unwindName, compOk,
      compName]

/-- Claim C1 witness (scenario A): reserve, schedule and pay succeed,
integrate fails, compensations succeed: exactly the three compensations in
the order refund payment, cancel appointment, release reservation. -/
theorem claim1_reverse_order_witness :
    (cyberwareInstallationSaga reqStd envStep4Fail).compensationsExecuted =
      ["Refund credstick payment", "Cancel ripperdoc appointment",
        "Release inventory reservation"] := by
  have h := claim1_reverse_order reqStd envStep4Fail (by
    norm_num [cyberwareInstallationSaga, cyberwareInstallationSagaFull,
      runForward, envStep4Fail, envAllOk, catchPath_success, initResult])
  have h2 := h.2 (by norm_num [envStep4Fail, envAllOk])
    (by norm_num [envStep4Fail, envAllOk]) (by norm_num [envStep4Fail, envAllOk])
  rw [h2]
  norm_num [expectedUnwindNames, cyberwareInstallationSaga,
    cyberwareInstallationSagaFull, runForward, envStep4Fail, envAllOk,
    catchPath_inventoryReserved, catchPath_appointment, catchPath_payment,
    initResult]

/-- Claim C5 counterexample: in the environment where every step succeeds,
the state right after step 4 completes has 4 successfully completed forward
steps but a compensation stack of length 3 — neural integration pushes no
compensation — so the stack length does not equal the number of completed,
not-yet-compensated steps in every state. -/
theorem claim5_counterexample :
    (runForward reqStd envAllOk).trace = [(1, 1), (2, 2), (3, 3), (4, 3)] ∧
    (4 : ℕ) ≠ 3 := by
  constructor
  · norm_num [runForward, reqStd, envAllOk]
  · decide

/-- Claim C5 (amended): in every state of the forward chain, the
compensation-stack length equals min(N, 3) for N completed forward steps:
each of the first three steps pushes exactly one compensation and the
fourth (neural integration) pushes none. -/
theorem claim5_stack_length (req : RequestM) (env : SagaEnv) :
    ∀ p ∈ (runForward req env).trace, p.2 = min p.1 3 := by
  obtain ⟨rOk, sOk, pOk, iOk, cOk, em, rel, can, ref, nOk⟩ := env
  intro p hp
  cases rOk <;> cases sOk <;> cases pOk <;> cases iOk <;>
    simp_all [runForward] <;>
    rcases hp with rfl | rfl | rfl | rfl <;> norm_num

/-- Claim C5 witness: the state after step 1 carries a stack of one
compensation. -/
theorem claim5_stack_length_witness :
    ((1, 1) : ℕ × ℕ) ∈ (runForward reqStd envAllOk).trace ∧
    ((1, 1) : ℕ × ℕ).2 = min ((1, 1) : ℕ × ℕ).1 3 :=
  ⟨by norm_num [runForward, reqStd, envAllOk],
    claim5_stack_length reqStd envAllOk (1, 1)
      (by norm_num [runForward, reqStd, envAllOk])⟩

/-- Claim C7: when the saga fails at the neural-integration step (three
completed steps on the stack), emergency stabilization is attempted exactly
once, before any standard compensation, and whether it succeeds or throws
(its failure is caught) the full unwind and the failure notification still
follow; for failures at steps 1-3 the emergency action never appears in the
execution log. -/
theorem claim7_emergency_order (req : RequestM) (env : SagaEnv) :
    (env.reserveOk = true → env.scheduleOk = true → env.payOk = true →
      env.integrateOk = false →
      sagaLog req env =
        SEvent.emergencyStab env.emergencyOutcome.isSome ::
          SEvent.comp ("Refund credstick payment") env.refundOk ::
          SEvent.comp ("Cancel ripperdoc appointment") env.cancelOutcome.isSome ::
          SEvent.comp ("Release inventory reservation") env.releaseOk ::
          [SEvent.notify env.notifyOk]) ∧
    ((env.reserveOk = false ∨ env.scheduleOk = false ∨ env.payOk = false) →
      ∀ b, SEvent.emergencyStab b ∉ sagaLog req env) := by
  constructor
  · intro h1 h2 h3 h4
    simp [sagaLog, cyberwareInstallationSagaFull, runForward, h1, h2, h3, h4,
      catchPath_log, compName, compOk, initResult]
  · intro hcase b
    obtain ⟨rOk, sOk, pOk, iOk, cOk, em, rel, can, ref, nOk⟩ := env
    cases rOk <;> cases sOk <;> cases pOk <;>
      simp_all [sagaLog, cyberwareInstallationSagaFull, runForward,
        catchPath_log, compName, compOk, initResult]

/-- Claim C7 witness: integration fails and the emergency stabilization
itself fails; it is still attempted exactly once, first, and the full
unwind and notification follow. -/
theorem claim7_emergency_order_witness :
    sagaLog reqStd envStep4EmFail =
      [SEvent.emergencyStab false,
        SEvent.comp ("Refund credstick payment") true,
        SEvent.comp ("Cancel ripperdoc appointment") true,
        SEvent.comp ("Release inventory reservation") true,
        SEvent.notify true] := by
  have h := (claim7_emergency_order reqStd envStep4EmFail).1 rfl rfl rfl rfl
  simpa [envStep4EmFail, envAllOk] using h

theorem unitPriceOf_pos (req : RequestM) (h : 0 < req.basePrice) :
    0 < unitPriceOf req := by
  unfold unitPriceOf
  have hd : min (req.reputation * (1/2)) 20 ≤ 20 := min_le_right _ _
  have h2 : 0 < 1 - min (req.reputation * (1/2)) 20 / 100 := by linarith
  exact mul_pos h h2

/-- Claim C10: when the saga fails at step 2 (appointment scheduling), the
only compensation is the release of the inventory reservation; its 15
percent restocking fee is subtracted from the refund total and no refund is
ever added, so the returned result reports a negative totalRefunded. -/
theorem claim10_negative_refund (req : RequestM) (env : SagaEnv)
    (h1 : env.reserveOk = true) (h2 : env.scheduleOk = false)
    (h3 : env.releaseOk = true) (hp : 0 < req.basePrice) :
    (cyberwareInstallationSaga req env).totalRefunded =
      -(15/100 * unitPriceOf req) ∧
    (cyberwareInstallationSaga req env).totalRefunded < 0 ∧
    (cyberwareInstallationSaga req env).compensationsExecuted =
      ["Release inventory reservation"] ∧
    (cyberwareInstallationSaga req env).failedAtStep = some ("Step 2") := by
  have hup : 0 < unitPriceOf req := unitPriceOf_pos req hp
  have hfee : 0 < 15/100 * unitPriceOf req := by
    have : (0:ℚ) < 15/100 := by norm_num
    exact mul_pos this hup
  have hfee' : 15/100 * unitPriceOf req ≠ 0 := ne_of_gt hfee
  have hsaga : cyberwareInstallationSaga req env =
      (catchPath env
        { initResult with
          inventoryReserved := some (unitPriceOf req)
          totalCost := initResult.totalCost + unitPriceOf req }
        [Comp.release (unitPriceOf req)]
        ("scheduleRipperdocAppointment failed")).1 := by
    simp [cyberwareInstallationSaga, cyberwareInstallationSagaFull,
      runForward, h1, h2]
  rw [hsaga]
  unfold catchPath
  rw [if_neg (by simp [initResult])]
  unfold finishUnwind unwindAll
  simp only [List.foldl_cons, List.foldl_nil]
  unfold execComp compExecute
  rw [h3]
  simp only [if_pos hfee']
  constructor
  · split <;> simp [initResult]
  constructor
  · have : -(15/100 * unitPriceOf req) < 0 := by linarith
    split <;> simpa [initResult]
  constructor
  · split <;> simp [initResult, compName]
  · split <;> simp [initResult] <;> decide

/-- Claim C10 witness: step 2 fails on the standard request and the
reported refund total is negative. -/
theorem claim10_negative_refund_witness :
    (cyberwareInstallationSaga reqStd envStep2Fail).totalRefunded < 0 :=
  (claim10_negative_refund reqStd envStep2Fail rfl rfl rfl
    (by norm_num [reqStd])).2.1

/-- Claim C2 counterexample: `heistProcessManager` does not catch the
over-budget error of `acquireGear` — on a zero-budget config with one gear
item the workflow raises ("Insufficient budget" propagates to the caller,
modelled as the pending error in the returned pair). -/
theorem claim2_counterexample :
    (heistProcessManager cfgGearBust oracleUnit sigNone).2 =
      some ("Insufficient budget") := by
  norm_num [heistProcessManager, cfgGearBust, oracleUnit, sigNone, targetEasy,
    initialiseHeist, abortBy, transitionToTeamAssembly, recruitLoop, gearLoop,
    transitionToGearAcquisition, acquireGear, transitionPhase]

/-- Claim C2 (amended): the saga orchestrator never raises — it is a total
function into structured results, and on failure the result carries a
failure reason and a failed-step marker — but `heistProcessManager` can
propagate an unhandled activity error (over-budget gear acquisition) to its
caller. -/
theorem claim2_never_throws :
    (∀ req env, (cyberwareInstallationSaga req env).success = false →
      (cyberwareInstallationSaga req env).failureReason.isSome = true ∧
      (cyberwareInstallationSaga req env).failedAtStep.isSome = true) ∧
    (∃ cfg o sig, (heistProcessManager cfg o sig).2.isSome = true) := by
  constructor
  · intro req env hfail
    obtain ⟨rOk, sOk, pOk, iOk, cOk, em, rel, can, ref, nOk⟩ := env
    cases rOk <;> cases sOk <;> cases pOk <;> cases iOk <;> cases cOk <;>
      simp_all [cyberwareInstallationSaga, cyberwareInstallationSagaFull,
        runForward, catchPath_failureReason, catchPath_failedAtStep,
        catchPath_success, initResult]
  · refine ⟨cfgGearBust, oracleUnit, sigNone, ?_⟩
    norm_num [heistProcessManager, cfgGearBust, oracleUnit, sigNone,
      targetEasy, initialiseHeist, abortBy, transitionToTeamAssembly,
      recruitLoop, gearLoop, transitionToGearAcquisition, acquireGear,
      transitionPhase]

/-- Claim C2 witness: a concrete failing saga execution has both failure
fields populated. -/
theorem claim2_never_throws_witness :
    (cyberwareInstallationSaga reqStd envStep4Fail).failureReason.isSome = true ∧
    (cyberwareInstallationSaga reqStd envStep4Fail).failedAtStep.isSome = true :=
  claim2_never_throws.1 reqStd envStep4Fail (by
    norm_num [cyberwareInstallationSaga, cyberwareInstallationSagaFull,
      runForward, envStep4Fail, envAllOk, catchPath_success, initResult])

/-- Claim C9 counterexample: the emergency extraction of `abortHeist` uses
the fixed threshold 0.7 and never reads the alert level: two states
differing only in alert level (0 versus 90) produce identical member
outcomes on the same roll, and the 0.69 roll still succeeds at alert 90 —
the per-member success chance is constant, not a strictly decreasing
function of the alert level. -/
theorem claim9_counterexample :
    (abortHeist (heistInfil 0) ("go") roll69).team =
      (abortHeist (heistInfil 90) ("go") roll69).team ∧
    (heistInfil 0).alertLevel = 0 ∧ (heistInfil 90).alertLevel = 90 ∧
    ((abortHeist (heistInfil 90) ("go") roll69).team.map
      (fun m => m.status)) = [MemberStatus.extracted] := by
  refine ⟨?_, rfl, rfl, ?_⟩ <;>
    · simp only [abortHeist, heistInfil, transitionPhase, memberJackie,
        targetEasy, List.enum, List.enumFrom, roll69]
      norm_num
      rfl

/-- Claim C9 (amended): when an abort is applied in the infiltration or
execution phase, each member is independently extracted exactly when its
roll lies below the fixed 0.7 threshold and is otherwise marked mia; the
outcome is independent of the alert level (the chance does not degrade as
the alert level rises). -/
theorem claim9_fixed_chance (h : HeistProcess) (reason : String)
    (roll : ℕ → ℚ)
    (hph : h.currentPhase = HeistPhase.infiltration ∨
      h.currentPhase = HeistPhase.execution) :
    (abortHeist h reason roll).team =
      h.team.enum.map (fun p =>
        if roll p.1 < 7/10 then { p.2 with status := MemberStatus.extracted }
        else { p.2 with status := MemberStatus.mia }) ∧
    (∀ q : ℚ, (abortHeist { h with alertLevel := q } reason roll).team =
      (abortHeist h reason roll).team) := by
  rcases hph with h' | h' <;>
    simp [abortHeist, transitionPhase, h']

/-- Claim C9 witness: changing the alert level from 0 to 55 leaves the
abort-extraction outcome unchanged. -/
theorem claim9_fixed_chance_witness :
    (abortHeist { heistInfil 0 with alertLevel := 55 } ("go") roll69).team =
      (abortHeist (heistInfil 0) ("go") roll69).team :=
  (claim9_fixed_chance (heistInfil 0) ("go") roll69 (Or.inl rfl)).2 55

theorem foldl_add_cut (l : List HeistMember) (a : ℚ) :
    l.foldl (fun sum m => sum + m.cutPercentage) a =
      a + (l.map (fun m => m.cutPercentage)).sum := by
  induction l generalizing a with
  | nil => simp
  | cons c rest ih => simp [ih, add_assoc]

theorem sum_map_share (F : ℚ) (l : List HeistMember) :
    F * ((l.map (fun m => m.cutPercentage)).sum) / 100 =
      (l.map (fun m => F * m.cutPercentage / 100)).sum := by
  induction l with
  | nil => simp
  | cons c rest ih =>
    simp only [List.map_cons, List.sum_cons, ← ih]
    ring

/-- Claim C8: the completion settlement computes an alert-proportional
penalty that is zero at or below the alert baseline of 50 and
basePayout * (alertLevel - 50) / 200 above it; the final payout is the base
payout minus the penalty; the surviving team is exactly the members with
status extracted (mia members excluded, their shares not redistributed to
other members); the team total equals the sum of the per-member shares
finalPayout * cut / 100 over the extracted members only; and `completeHeist`
is the transition to the terminal completed phase. -/
theorem claim8_settlement (h : HeistProcess) :
    (h.alertLevel ≤ 50 → completeHeistAlertPenalty h = 0) ∧
    (50 < h.alertLevel → completeHeistAlertPenalty h =
      h.target.estimatedPayout * (h.alertLevel - 50) / 200) ∧
    completeHeistFinalPayout h =
      h.target.estimatedPayout - completeHeistAlertPenalty h ∧
    (∀ m ∈ completeHeistSurvivingTeam h, m.status = MemberStatus.extracted) ∧
    (∀ m ∈ h.team, m.status = MemberStatus.extracted →
      m ∈ completeHeistSurvivingTeam h) ∧
    (∀ m ∈ h.team, m.status = MemberStatus.mia →
      m ∉ completeHeistSurvivingTeam h) ∧
    completeHeistTotalCut h =
      ((completeHeistSurvivingTeam h).map (fun m => m.cutPercentage)).sum ∧
    completeHeistFinalPayout h * completeHeistTotalCut h / 100 =
      ((completeHeistSurvivingTeam h).map
        (fun m => completeHeistFinalPayout h * m.cutPercentage / 100)).sum ∧
    (completeHeist h).currentPhase = HeistPhase.completed ∧
    (completeHeist h).phaseHistory = h.phaseHistory ++
      [{ fromPhase := HeistPhase.extraction, toPhase := HeistPhase.completed,
         reason := "Operation successful",
         triggeredBy := TriggerSource.workflow }] := by
  have hcut : completeHeistTotalCut h =
      ((completeHeistSurvivingTeam h).map (fun m => m.cutPercentage)).sum := by
    unfold completeHeistTotalCut
    rw [foldl_add_cut]
    ring
  refine ⟨?_, ?_, ?_, ?_, ?_, ?_, hcut, ?_, ?_, ?_⟩
  · intro hle
    unfold completeHeistAlertPenalty
    rw [if_neg (not_lt.mpr hle)]
  · intro hgt
    unfold completeHeistAlertPenalty
    rw [if_pos hgt]
  · rfl
  · intro m hm
    have h2 : m ∈ h.team ∧ m.status = MemberStatus.extracted := by
      simpa [completeHeistSurvivingTeam, List.mem_filter] using hm
    exact h2.2
  · intro m hm hst
    simp [completeHeistSurvivingTeam, List.mem_filter, hm, hst]
  · intro m hm hst
    simp [completeHeistSurvivingTeam, List.mem_filter, hm, hst]
  · rw [hcut, sum_map_share]
  · simp [completeHeist, transitionPhase]
  · simp [completeHeist, transitionPhase]

/-- Claim C8 witness: a heist at alert 70 with payout 10000 is charged the
alert-proportional penalty. -/
theorem claim8_settlement_witness :
    completeHeistAlertPenalty heistSettled =
      heistSettled.target.estimatedPayout * (heistSettled.alertLevel - 50) / 200 :=
  (claim8_settlement heistSettled).2.1 (by norm_num [heistSettled])

/-!
## The reachable-history invariant of the process manager
-/

theorem allowedRec_abort (f : HeistPhase) (reason : String)
    (g : TriggerSource) :
    allowedRec
      { fromPhase := f, toPhase := HeistPhase.aborted,
        reason := reason, triggeredBy := g } = true := by
  simp [allowedRec]

theorem allowedRec_comp (reason : String) :
    allowedRec
      { fromPhase := HeistPhase.infiltration,
        toPhase := HeistPhase.compromised, reason := reason,
        triggeredBy := TriggerSource.failure } = true := by
  simp [allowedRec]

theorem chainFromB_append (l : List PhaseTransition) (rec : PhaseTransition) :
    ∀ p, chainFromB p (l ++ [rec]) =
      (chainFromB p l && decide (rec.fromPhase = endPhase p l)) := by
  induction l with
  | nil => intro p; simp [chainFromB, endPhase]
  | cons a rest ih =>
    intro p
    simp [chainFromB, endPhase, ih, Bool.and_assoc]

theorem endPhase_append (l : List PhaseTransition) (rec : PhaseTransition) :
    ∀ p, endPhase p (l ++ [rec]) = rec.toPhase := by
  induction l with
  | nil => intro p; rfl
  | cons a rest ih => intro p; simp [endPhase, ih]

theorem histInv_congr {h h' : HeistProcess}
    (hh : h'.phaseHistory = h.phaseHistory)
    (hc : h'.currentPhase = h.currentPhase) (hi : histInv h) : histInv h' := by
  unfold histInv at hi ⊢
  rw [hh, hc]
  exact hi

theorem histInv_transitionPhase {h : HeistProcess} {f t : HeistPhase}
    {reason : String} {g : TriggerSource} (hi : histInv h)
    (ha : allowedRec
      { fromPhase := f, toPhase := t, reason := reason,
        triggeredBy := g } = true)
    (hf : f = h.currentPhase) :
    histInv (transitionPhase h f t reason g) := by
  obtain ⟨h1, h2, h3⟩ := hi
  refine ⟨?_, ?_, ?_⟩
  · simp [transitionPhase, List.all_append, h1, ha]
  · simp [transitionPhase, chainFromB_append, h2, hf, h3]
  · simp [transitionPhase, endPhase_append]

theorem initialiseHeist_histInv (target : HeistTarget) (budget : ℚ) :
    histInv (initialiseHeist target budget) := by
  refine ⟨rfl, rfl, rfl⟩

theorem recruitTeamMember_hist (h : HeistProcess) (m : HeistMember)
    (roll : ℚ) :
    (recruitTeamMember h m roll).phaseHistory = h.phaseHistory ∧
    (recruitTeamMember h m roll).currentPhase = h.currentPhase := by
  unfold recruitTeamMember
  split <;> exact ⟨rfl, rfl⟩

theorem recruitLoop_hist (heat : ℕ → ℚ) (sig : SignalEnv)
    (team : List HeistMember) :
    ∀ h t, (recruitLoop h team heat sig t).phaseHistory = h.phaseHistory ∧
      (recruitLoop h team heat sig t).currentPhase = h.currentPhase := by
  induction team with
  | nil => intro h t; exact ⟨rfl, rfl⟩
  | cons m rest ih =>
    intro h t
    unfold recruitLoop
    split
    · exact ⟨rfl, rfl⟩
    · obtain ⟨a1, a2⟩ := ih (recruitTeamMember h m (heat t)) (t + 1)
      obtain ⟨b1, b2⟩ := recruitTeamMember_hist h m (heat t)
      exact ⟨by rw [a1, b1], by rw [a2, b2]⟩

theorem acquireGear_hist (h : HeistProcess) (gearType : String) (cost : ℚ) :
    ((acquireGear h gearType cost).1).phaseHistory = h.phaseHistory ∧
    ((acquireGear h gearType cost).1).currentPhase = h.currentPhase := by
  unfold acquireGear
  split
  · exact ⟨rfl, rfl⟩
  · split <;> exact ⟨rfl, rfl⟩

theorem gearLoop_hist (sig : SignalEnv) (gear : List (String × ℚ)) :
    ∀ h t, ((gearLoop h gear sig t).1).phaseHistory = h.phaseHistory ∧
      ((gearLoop h gear sig t).1).currentPhase = h.currentPhase := by
  induction gear with
  | nil => intro h t; exact ⟨rfl, rfl⟩
  | cons g rest ih =>
    intro h t
    unfold gearLoop
    split
    · exact ⟨rfl, rfl⟩
    · obtain ⟨a1, a2⟩ := acquireGear_hist h g.1 g.2
      cases hq : acquireGear h g.1 g.2 with
      | mk h1 err =>
        rw [hq] at a1 a2
        cases err with
        | some e => simpa [hq] using ⟨a1, a2⟩
        | none =>
          obtain ⟨b1, b2⟩ := ih h1 (t + 1)
          simp only [hq]
          exact ⟨by rw [b1]; exact a1, by rw [b2]; exact a2⟩

theorem transitionPhase_currentPhase (h : HeistProcess) (f t : HeistPhase)
    (reason : String) (g : TriggerSource) :
    (transitionPhase h f t reason g).currentPhase = t := rfl

theorem transitionPhase_phaseHistory (h : HeistProcess) (f t : HeistPhase)
    (reason : String) (g : TriggerSource) :
    (transitionPhase h f t reason g).phaseHistory = h.phaseHistory ++
      [{ fromPhase := f, toPhase := t, reason := reason,
         triggeredBy := g }] := rfl

theorem abortHeist_currentPhase (h : HeistProcess) (reason : String)
    (roll : ℕ → ℚ) :
    (abortHeist h reason roll).currentPhase = HeistPhase.aborted := rfl

theorem abortHeist_inv (h : HeistProcess) (reason : String) (roll : ℕ → ℚ)
    (hi : histInv h) : histInv (abortHeist h reason roll) := by
  unfold abortHeist
  refine histInv_transitionPhase ?_ (allowedRec_abort _ _ _) ?_
  · refine histInv_congr ?_ ?_ hi <;> (repeat' split) <;> rfl
  · (repeat' split) <;> rfl

set_option maxHeartbeats 1600000 in
theorem beginInfiltration_inv (h : HeistProcess) (roll : ℚ)
    (hi : histInv h) (hph : h.currentPhase = HeistPhase.gear_acquisition) :
    histInv (beginInfiltration h roll).1 ∧
    ((beginInfiltration h roll).2 = none →
      (beginInfiltration h roll).1.currentPhase = HeistPhase.infiltration) := by
  unfold beginInfiltration
  dsimp only
  split
  · split
    · refine ⟨histInv_congr rfl rfl hi, ?_⟩
      intro hc
      simp at hc
    · refine ⟨?_, fun _ => transitionPhase_currentPhase _ _ _ _ _⟩
      exact histInv_transitionPhase (histInv_congr rfl rfl hi)
        (by simp [allowedRec, specLegalForwardEdge]) hph.symm
  · refine ⟨?_, fun _ => transitionPhase_currentPhase _ _ _ _ _⟩
    exact histInv_transitionPhase (histInv_congr rfl rfl hi)
      (by simp [allowedRec, specLegalForwardEdge]) hph.symm

theorem executeObjectiveStage_spec (acc : HeistProcess × Option String)
    (roll : ℚ) (hi : histInv acc.1)
    (hph : acc.2 = none → acc.1.currentPhase = HeistPhase.infiltration)
    (herr : acc.2 ≠ none →
      acc.1.currentPhase = HeistPhase.compromised ∧ 100 ≤ acc.1.alertLevel) :
    histInv (executeObjectiveStage acc roll).1 ∧
    ((executeObjectiveStage acc roll).2 = none →
      (executeObjectiveStage acc roll).1.currentPhase = HeistPhase.infiltration) ∧
    ((executeObjectiveStage acc roll).2 ≠ none →
      (executeObjectiveStage acc roll).1.currentPhase = HeistPhase.compromised ∧
      100 ≤ (executeObjectiveStage acc roll).1.alertLevel) := by
  obtain ⟨h, err⟩ := acc
  cases err with
  | some e =>
    refine ⟨hi, ?_, ?_⟩
    · intro hc
      simp [executeObjectiveStage] at hc
    · intro _
      exact herr (by simp)
  | none =>
    have hphi : h.currentPhase = HeistPhase.infiltration := hph rfl
    unfold executeObjectiveStage
    dsimp only
    split
    · split
      · rename_i halert
        refine ⟨?_, ?_, ?_⟩
        · exact histInv_transitionPhase (histInv_congr rfl rfl hi)
            (by simp [allowedRec, hphi]) rfl
        · intro hc
          simp at hc
        · intro _
          refine ⟨transitionPhase_currentPhase _ _ _ _ _, ?_⟩
          simpa [transitionPhase] using halert
      · exact ⟨histInv_congr rfl rfl hi, fun _ => hphi, fun hc => absurd rfl hc⟩
    · exact ⟨hi, fun _ => hphi, fun hc => absurd rfl hc⟩

theorem execStages_spec (rolls : List ℚ) :
    ∀ acc : HeistProcess × Option String, histInv acc.1 →
      (acc.2 = none → acc.1.currentPhase = HeistPhase.infiltration) →
      (acc.2 ≠ none →
        acc.1.currentPhase = HeistPhase.compromised ∧ 100 ≤ acc.1.alertLevel) →
      histInv (rolls.foldl executeObjectiveStage acc).1 ∧
      ((rolls.foldl executeObjectiveStage acc).2 = none →
        (rolls.foldl executeObjectiveStage acc).1.currentPhase =
          HeistPhase.infiltration) ∧
      ((rolls.foldl executeObjectiveStage acc).2 ≠ none →
        (rolls.foldl executeObjectiveStage acc).1.currentPhase =
          HeistPhase.compromised ∧
        100 ≤ (rolls.foldl executeObjectiveStage acc).1.alertLevel) := by
  induction rolls with
  | nil => intro acc h1 h2 h3; exact ⟨h1, h2, h3⟩
  | cons r rest ih =>
    intro acc h1 h2 h3
    have hs := executeObjectiveStage_spec acc r h1 h2 h3
    exact ih _ hs.1 hs.2.1 hs.2.2

theorem executeObjective_spec (h : HeistProcess) (roll : ℕ → ℚ)
    (hi : histInv h) (hph : h.currentPhase = HeistPhase.infiltration) :
    histInv (executeObjective h roll).1 ∧
    ((executeObjective h roll).2 = none →
      (executeObjective h roll).1.currentPhase = HeistPhase.execution) ∧
    ((executeObjective h roll).2 ≠ none →
      (executeObjective h roll).1.currentPhase = HeistPhase.compromised ∧
      100 ≤ (executeObjective h roll).1.alertLevel) := by
  have hs := execStages_spec ((List.range 4).map roll) (h, none) hi
    (fun _ => hph) (fun hc => absurd rfl hc)
  unfold executeObjective
  cases hq : ((List.range 4).map roll).foldl executeObjectiveStage (h, none) with
  | mk h' err =>
    rw [hq] at hs
    cases err with
    | none =>
      refine ⟨?_, ?_, ?_⟩
      · exact histInv_transitionPhase hs.1
          (by simp [allowedRec, specLegalForwardEdge]) (hs.2.1 rfl).symm
      · intro _
        exact transitionPhase_currentPhase _ _ _ _ _
      · intro hc
        simp at hc
    | some e => exact ⟨hs.1, by simp, fun _ => hs.2.2 (by simp)⟩

theorem extractTeam_spec (h : HeistProcess) (roll : ℕ → ℚ)
    (hi : histInv h) (hph : h.currentPhase = HeistPhase.execution) :
    histInv (extractTeam h roll) ∧
    (extractTeam h roll).currentPhase = HeistPhase.extraction := by
  unfold extractTeam
  refine ⟨?_, transitionPhase_currentPhase _ _ _ _ _⟩
  exact histInv_transitionPhase (histInv_congr rfl rfl hi)
    (by simp [allowedRec, specLegalForwardEdge]) hph.symm

theorem completeHeist_spec (h : HeistProcess) (hi : histInv h)
    (hph : h.currentPhase = HeistPhase.extraction) :
    histInv (completeHeist h) ∧
    (completeHeist h).currentPhase = HeistPhase.completed := by
  unfold completeHeist
  refine ⟨?_, transitionPhase_currentPhase _ _ _ _ _⟩
  exact histInv_transitionPhase hi
    (by simp [allowedRec, specLegalForwardEdge]) hph.symm

theorem pmPhases4to7_inv (h2 : HeistProcess) (o : HeistOracle)
    (sig : SignalEnv) (t : ℕ) (hi : histInv h2)
    (hph : h2.currentPhase = HeistPhase.gear_acquisition) :
    histInv (pmPhases4to7 h2 o sig t).1 := by
  unfold pmPhases4to7
  have hb := beginInfiltration_inv h2 o.infilRoll hi hph
  cases hq : beginInfiltration h2 o.infilRoll with
  | mk h3 err =>
    rw [hq] at hb
    cases err with
    | some e => exact abortHeist_inv h3 _ o.abortRoll hb.1
    | none =>
      have hph3 : h3.currentPhase = HeistPhase.infiltration := hb.2 rfl
      dsimp only
      split
      · exact abortHeist_inv h3 _ o.abortRoll hb.1
      · have he := executeObjective_spec h3 o.execRoll hb.1 hph3
        cases hq2 : executeObjective h3 o.execRoll with
        | mk h4 err2 =>
          rw [hq2] at he
          cases err2 with
          | some e => exact abortHeist_inv h4 _ o.abortRoll he.1
          | none =>
            dsimp only
            split
            · exact abortHeist_inv h4 _ o.abortRoll he.1
            · have hx := extractTeam_spec h4 o.extractRoll he.1 (he.2.1 rfl)
              exact (completeHeist_spec _ hx.1 hx.2).1

theorem transitionToTeamAssembly_spec (h : HeistProcess) (hi : histInv h)
    (hph : h.currentPhase = HeistPhase.planning) :
    histInv (transitionToTeamAssembly h) ∧
    (transitionToTeamAssembly h).currentPhase = HeistPhase.team_assembly := by
  unfold transitionToTeamAssembly
  refine ⟨?_, transitionPhase_currentPhase _ _ _ _ _⟩
  exact histInv_transitionPhase hi
    (by simp [allowedRec, specLegalForwardEdge]) hph.symm

theorem transitionToGearAcquisition_spec (h : HeistProcess) (hi : histInv h)
    (hph : h.currentPhase = HeistPhase.team_assembly) :
    histInv (transitionToGearAcquisition h) ∧
    (transitionToGearAcquisition h).currentPhase = HeistPhase.gear_acquisition := by
  unfold transitionToGearAcquisition
  refine ⟨?_, transitionPhase_currentPhase _ _ _ _ _⟩
  exact histInv_transitionPhase hi
    (by simp [allowedRec, specLegalForwardEdge]) hph.symm

theorem heistPM_histInv (cfg : HeistConfig) (o : HeistOracle)
    (sig : SignalEnv) : histInv (heistProcessManager cfg o sig).1 := by
  unfold heistProcessManager
  dsimp only
  have i0 := initialiseHeist_histInv cfg.target cfg.budget
  split
  · exact abortHeist_inv _ _ _ i0
  · have i1 := transitionToTeamAssembly_spec _ i0 rfl
    obtain ⟨r1, r2⟩ := recruitLoop_hist o.heatRoll sig cfg.team
      (transitionToTeamAssembly (initialiseHeist cfg.target cfg.budget)) 1
    have i2 : histInv (recruitLoop
        (transitionToTeamAssembly (initialiseHeist cfg.target cfg.budget))
        cfg.team o.heatRoll sig 1) := histInv_congr r1 r2 i1.1
    have p2 : (recruitLoop
        (transitionToTeamAssembly (initialiseHeist cfg.target cfg.budget))
        cfg.team o.heatRoll sig 1).currentPhase = HeistPhase.team_assembly := by
      rw [r2]; exact i1.2
    split
    · exact abortHeist_inv _ _ _ i2
    · split
      · exact abortHeist_inv _ _ _ i2
      · have i3 := transitionToGearAcquisition_spec _ i2 p2
        obtain ⟨g1, g2⟩ := gearLoop_hist sig cfg.gear
          (transitionToGearAcquisition (recruitLoop
            (transitionToTeamAssembly (initialiseHeist cfg.target cfg.budget))
            cfg.team o.heatRoll sig 1)) (cfg.team.length + 3)
        cases hq : gearLoop
            (transitionToGearAcquisition (recruitLoop
              (transitionToTeamAssembly (initialiseHeist cfg.target cfg.budget))
              cfg.team o.heatRoll sig 1)) cfg.gear sig (cfg.team.length + 3) with
        | mk h1 errg =>
          rw [hq] at g1 g2
          have i4 : histInv h1 := histInv_congr g1 g2 i3.1
          have p4 : h1.currentPhase = HeistPhase.gear_acquisition := by
            rw [g2]; exact i3.2
          cases errg with
          | some e => exact i4
          | none =>
            dsimp only
            split
            · exact abortHeist_inv _ _ _ i4
            · refine pmPhases4to7_inv _ o sig _ ?_ ?_
              · split
                · exact histInv_congr rfl rfl i4
                · exact i4
              · split
                · exact p4
                · exact p4

/-- Claim C3 counterexample: `transitionPhase` performs no validation of the
requested edge — it appends the record and commits the phase even for the
illegal planning → completed edge. -/
theorem claim3_counterexample :
    (transitionPhase (initialiseHeist targetEasy 1000) HeistPhase.planning
      HeistPhase.completed ("skip") TriggerSource.workflow).phaseHistory =
      [{ fromPhase := HeistPhase.planning, toPhase := HeistPhase.completed,
         reason := "skip", triggeredBy := TriggerSource.workflow }] ∧
    (transitionPhase (initialiseHeist targetEasy 1000) HeistPhase.planning
      HeistPhase.completed ("skip") TriggerSource.workflow).currentPhase =
      HeistPhase.completed ∧
    specLegalForwardEdge HeistPhase.planning HeistPhase.completed = false :=
  ⟨rfl, rfl, rfl⟩

/-- Claim C3 (amended): `transitionPhase` validates nothing — for every
requested edge it unconditionally appends the record and updates the
current phase; nevertheless every heist state reachable through
`heistProcessManager` satisfies the history invariant: records chain from
the planning phase, the current phase is the phase the history ends at, and
every record is a declared legal forward edge, or targets aborted (possibly
from the terminal compromised phase), or is the infiltration → compromised
failure edge. -/
theorem claim3_transition_validation :
    (∀ (h : HeistProcess) (f t : HeistPhase) (reason : String)
      (g : TriggerSource),
      (transitionPhase h f t reason g).phaseHistory = h.phaseHistory ++
        [{ fromPhase := f, toPhase := t, reason := reason, triggeredBy := g }] ∧
      (transitionPhase h f t reason g).currentPhase = t) ∧
    (∀ cfg o sig, histInv (heistProcessManager cfg o sig).1) :=
  ⟨fun h f t reason g =>
    ⟨transitionPhase_phaseHistory h f t reason g,
      transitionPhase_currentPhase h f t reason g⟩,
    heistPM_histInv⟩

theorem specLegal_to_compromised (f : HeistPhase) :
    specLegalForwardEdge f HeistPhase.compromised = false := by
  cases f <;> rfl

theorem executeObjectiveStage_err (acc : HeistProcess × Option String)
    (roll : ℚ)
    (hinv : acc.2 ≠ none →
      acc.1.currentPhase = HeistPhase.compromised ∧ 100 ≤ acc.1.alertLevel) :
    (executeObjectiveStage acc roll).2 ≠ none →
    (executeObjectiveStage acc roll).1.currentPhase = HeistPhase.compromised ∧
    100 ≤ (executeObjectiveStage acc roll).1.alertLevel := by
  obtain ⟨h, err⟩ := acc
  cases err with
  | some e => exact fun _ => hinv (by simp)
  | none =>
    unfold executeObjectiveStage
    dsimp only
    split
    · split
      · rename_i halert
        intro _
        refine ⟨transitionPhase_currentPhase _ _ _ _ _, ?_⟩
        simpa [transitionPhase] using halert
      · intro hc
        exact absurd rfl hc
    · intro hc
      exact absurd rfl hc

theorem execStages_err (rolls : List ℚ) :
    ∀ acc : HeistProcess × Option String,
      (acc.2 ≠ none →
        acc.1.currentPhase = HeistPhase.compromised ∧ 100 ≤ acc.1.alertLevel) →
      (rolls.foldl executeObjectiveStage acc).2 ≠ none →
      (rolls.foldl executeObjectiveStage acc).1.currentPhase =
        HeistPhase.compromised ∧
      100 ≤ (rolls.foldl executeObjectiveStage acc).1.alertLevel := by
  induction rolls with
  | nil => intro acc h1; exact h1
  | cons r rest ih =>
    intro acc h1
    exact ih _ (executeObjectiveStage_err acc r h1)

set_option maxHeartbeats 800000 in
/-- Claim C6 counterexample: a run in which internal execution-stage risk
rolls push the alert level to 100 records the compromised transition with
from-phase infiltration — not execution — because the
infiltration → execution record is only appended when the objective
completes. -/
theorem claim6_counterexample :
    ((heistProcessManager cfgCompromise oracleRisky sigAlert60).1.phaseHistory.map
      (fun rec => (rec.fromPhase, rec.toPhase))) =
      [(HeistPhase.planning, HeistPhase.team_assembly),
       (HeistPhase.team_assembly, HeistPhase.gear_acquisition),
       (HeistPhase.gear_acquisition, HeistPhase.infiltration),
       (HeistPhase.infiltration, HeistPhase.compromised),
       (HeistPhase.compromised, HeistPhase.aborted)] ∧
    HeistPhase.infiltration ≠ HeistPhase.execution := by
  have e1 : heistProcessManager cfgCompromise oracleRisky sigAlert60 =
      pmPhases4to7 hB oracleRisky sigAlert60 4 := by
    norm_num [heistProcessManager, cfgCompromise, targetEasy, initialiseHeist,
      abortBy, sigAlert60, transitionToTeamAssembly,
      transitionToGearAcquisition, recruitLoop, gearLoop, transitionPhase,
      hB, recTA, recGA]
  have e2 : beginInfiltration hB oracleRisky.infilRoll = (hI, none) := by
    norm_num [beginInfiltration, hB, hI, targetEasy, oracleRisky,
      baseChanceOf, intelBonusOf, transitionPhase, recTA, recGA, recInf]
  have e3 : executeObjective hI oracleRisky.execRoll =
      (hC, some ("OPERATION COMPROMISED - Security response incoming!")) := by
    norm_num [executeObjective, executeObjectiveStage, hI, hC, targetEasy,
      oracleRisky, transitionPhase, List.range, List.range.loop, recTA,
      recGA, recInf, recC]
  rw [e1]
  unfold pmPhases4to7
  rw [e2]
  dsimp only
  rw [e3]
  dsimp only
  refine ⟨?_, by simp⟩
  norm_num [abortHeist, abortBy, sigAlert60, hI, hC, oracleRisky, targetEasy,
    transitionPhase, recTA, recGA, recInf, recC]

/-- Claim C6 (amended): every compromised record a process-manager run can
produce comes from the infiltration phase with trigger source failure;
`executeObjective` throws with the state in the compromised phase only when
the internally accumulated alert level has reached 100; an externally
delivered alert update whose accumulated total reaches the threshold sets
the abort flag in the signal handler; and an abort flag visible by the
team-confirmation wait ends the run in the aborted terminal phase without
raising. -/
theorem claim6_compromised_asymmetry :
    (∀ cfg o sig rec, rec ∈ (heistProcessManager cfg o sig).1.phaseHistory →
      rec.toPhase = HeistPhase.compromised →
      rec.fromPhase = HeistPhase.infiltration ∧
      rec.triggeredBy = TriggerSource.failure) ∧
    (∀ (h : HeistProcess) (roll : ℕ → ℚ) (h1 : HeistProcess) (e : String),
      executeObjective h roll = (h1, some e) →
      h1.currentPhase = HeistPhase.compromised ∧ 100 ≤ h1.alertLevel) ∧
    (∀ (hp : HeistProcess) (flags : SignalFlags) (delta : ℚ)
      (source : String),
      100 ≤ hp.alertLevel + (flags.alertUpdateAccum + delta) →
      (handleUpdateAlertLevel (some hp) flags delta source).abortRequested =
        true) ∧
    (∀ cfg o sig t, sig.abortArrival = some t → t ≤ cfg.team.length + 2 →
      (heistProcessManager cfg o sig).2 = none ∧
      (heistProcessManager cfg o sig).1.currentPhase = HeistPhase.aborted) := by
  refine ⟨?_, ?_, ?_, ?_⟩
  · intro cfg o sig rec hmem htd
    have hall := (heistPM_histInv cfg o sig).1
    rw [List.all_eq_true] at hall
    have h2 := hall rec hmem
    simp only [allowedRec, htd, specLegal_to_compromised, Bool.false_or,
      Bool.or_eq_true, decide_eq_true_eq] at h2
    rcases h2 with h2 | h2
    · cases h2
    · exact ⟨h2.1, h2.2.2⟩
  · intro h roll h1 e heq
    unfold executeObjective at heq
    cases hq : ((List.range 4).map roll).foldl executeObjectiveStage (h, none) with
    | mk h' err =>
      rw [hq] at heq
      have he := execStages_err ((List.range 4).map roll) (h, none)
        (fun hc => absurd rfl hc)
      rw [hq] at he
      cases err with
      | none => simp at heq
      | some e2 =>
        have h3 := he (by simp)
        simp only at heq
        cases heq
        exact h3
  · intro hp flags delta source h100
    unfold handleUpdateAlertLevel
    dsimp only
    rw [if_pos h100]
  · intro cfg o sig t hA hT
    unfold heistProcessManager
    dsimp only
    split
    · exact ⟨rfl, abortHeist_currentPhase _ _ _⟩
    · split
      · exact ⟨rfl, abortHeist_currentPhase _ _ _⟩
      · split
        · exact ⟨rfl, abortHeist_currentPhase _ _ _⟩
        · rename_i hc0 hc1 hc2
          exfalso
          simp [abortBy, hA] at hc2
          omega

/-- Claim C6 witness: an abort signal visible from the first checkpoint
ends the run in the aborted terminal phase. -/
theorem claim6_witness :
    (heistProcessManager cfgCompromise oracleUnit sigAbortAt0).1.currentPhase =
      HeistPhase.aborted :=
  (claim6_compromised_asymmetry.2.2.2 cfgCompromise oracleUnit sigAbortAt0 0
    rfl (by norm_num [cfgCompromise])).2
